import Mathlib

/-!
# tharness: the result state machine and the reporter

A shallow embedding of `tharness.c` / `tharness.h` and of the demonstration
tests of `tests/main.c`.

* The global `Tharness tharness` is a value of the structure `Tharness`; every
  function that reads or writes the global takes it (or the pair `Sys` of the
  global and the characters written to standard output) and returns the new one.
* `unsigned` counters are natural numbers, incremented modulo `2^32`.
* A `const char* msg` together with its variadic arguments is a `Message`: the
  format string and the characters `vprintf` writes for it.  A null `msg` is
  `none`.
* `msg[strlen(msg)-1]` reads outside the string when `msg` is empty: functions
  that print return `Option`, and `none` stands for that read.
-/

namespace Harness

/-! ## Private types -/

/-- The C enum `TharnessState`. -/
inductive TharnessState where
  | THARNESS_NORMAL_STATE
  | THARNESS_IGNORING_STATE
  | THARNESS_IGNORED_STATE
  | THARNESS_FAILING_STATE
  | THARNESS_FAILED_STATE
  | THARNESS_RESULTS_STATE
deriving DecidableEq, Repr

/-- The C enum `TharnessEvent`. -/
inductive TharnessEvent where
  | THARNESS_FAILED_EVENT
  | THARNESS_PASSED_EVENT
  | THARNESS_IGNORED_EVENT
  | THARNESS_RUN_TEST_EVENT
  | THARNESS_RUN_EXPECT_EVENT
  | THARNESS_RESULTS_EVENT
deriving DecidableEq, Repr

open TharnessState TharnessEvent

/-- The C struct `Tharness` of `tharness.h`. -/
structure Tharness where
  total : Nat
  failures : Nat
  ignores : Nat
  state : TharnessState
  at_new_line : Bool
  verbose : Bool
deriving DecidableEq, Repr

/-- The C increment `x++` of an `unsigned` (32 bits): addition modulo `2^32`. -/
def uinc (x : Nat) : Nat := (x + 1) % 4294967296

/-- The zero-initialised global `Tharness tharness;` at program start. -/
def tharness_zero : Tharness :=
  { total := 0, failures := 0, ignores := 0, state := THARNESS_NORMAL_STATE,
    at_new_line := false, verbose := false }

/-! ## The state machine -/

/-- The C function `tharness_init`: five assignments, `at_new_line` is not written. -/
def tharness_init (verbose : Bool) (t : Tharness) : Tharness :=
  { t with total := 0, failures := 0, ignores := 0, state := THARNESS_NORMAL_STATE,
           verbose := verbose }

/-- The C function `tharness_handle`: the nested `switch` over state and event. -/
def tharness_handle (t : Tharness) (event : TharnessEvent) : Tharness :=
  match t.state with
  | THARNESS_NORMAL_STATE =>
    match event with
    | THARNESS_FAILED_EVENT =>
      { t with failures := uinc t.failures, state := THARNESS_FAILING_STATE }
    | THARNESS_IGNORED_EVENT =>
      { t with ignores := uinc t.ignores, state := THARNESS_IGNORING_STATE }
    | THARNESS_RUN_TEST_EVENT => { t with total := uinc t.total }
    | THARNESS_RESULTS_EVENT => { t with state := THARNESS_RESULTS_STATE }
    | THARNESS_PASSED_EVENT => t
    | THARNESS_RUN_EXPECT_EVENT => t
  | THARNESS_IGNORING_STATE =>
    match event with
    | THARNESS_FAILED_EVENT => { t with state := THARNESS_IGNORED_STATE }
    | THARNESS_PASSED_EVENT => { t with state := THARNESS_IGNORED_STATE }
    | THARNESS_IGNORED_EVENT => { t with state := THARNESS_IGNORED_STATE }
    | THARNESS_RUN_TEST_EVENT =>
      { t with state := THARNESS_NORMAL_STATE, total := uinc t.total }
    | THARNESS_RUN_EXPECT_EVENT => { t with state := THARNESS_IGNORED_STATE }
    | THARNESS_RESULTS_EVENT => { t with state := THARNESS_RESULTS_STATE }
  | THARNESS_IGNORED_STATE =>
    match event with
    | THARNESS_RUN_TEST_EVENT =>
      { t with state := THARNESS_NORMAL_STATE, total := uinc t.total }
    | THARNESS_RESULTS_EVENT => { t with state := THARNESS_RESULTS_STATE }
    | THARNESS_FAILED_EVENT => t
    | THARNESS_PASSED_EVENT => t
    | THARNESS_IGNORED_EVENT => t
    | THARNESS_RUN_EXPECT_EVENT => t
  | THARNESS_FAILING_STATE =>
    match event with
    | THARNESS_FAILED_EVENT => { t with state := THARNESS_FAILED_STATE }
    | THARNESS_PASSED_EVENT => { t with state := THARNESS_FAILED_STATE }
    | THARNESS_IGNORED_EVENT => { t with state := THARNESS_FAILED_STATE }
    | THARNESS_RUN_TEST_EVENT =>
      { t with state := THARNESS_NORMAL_STATE, total := uinc t.total }
    | THARNESS_RUN_EXPECT_EVENT => { t with state := THARNESS_FAILED_STATE }
    | THARNESS_RESULTS_EVENT => { t with state := THARNESS_RESULTS_STATE }
  | THARNESS_FAILED_STATE =>
    match event with
    | THARNESS_RUN_TEST_EVENT =>
      { t with state := THARNESS_NORMAL_STATE, total := uinc t.total }
    | THARNESS_RESULTS_EVENT => { t with state := THARNESS_RESULTS_STATE }
    | THARNESS_FAILED_EVENT => t
    | THARNESS_PASSED_EVENT => t
    | THARNESS_IGNORED_EVENT => t
    | THARNESS_RUN_EXPECT_EVENT => t
  | THARNESS_RESULTS_STATE => t

/-- Feeding a list of events, first to last. -/
def run_events (t : Tharness) (events : List TharnessEvent) : Tharness :=
  events.foldl tharness_handle t

/-- The C function `tharness_can_output`. -/
def tharness_can_output (t : Tharness) : Bool :=
  t.verbose ||
  t.state == THARNESS_FAILING_STATE ||
  t.state == THARNESS_IGNORING_STATE ||
  t.state == THARNESS_RESULTS_STATE

/-! ## The reporter -/

/-- A `const char* msg` with its variadic arguments: the format string `fmt`
and `text`, the characters `vprintf(msg, args)` writes. -/
structure Message where
  fmt : String
  text : String
deriving DecidableEq, Repr

/-- The global `tharness` together with the characters written to `stdout`. -/
structure Sys where
  tharness : Tharness
  stdout : String
deriving DecidableEq, Repr

/-- Conversion of an `unsigned` to `int` (two's complement), as happens when a
counter is passed for `%d` or returned from `tharness_results`. -/
def to_int (u : Nat) : Int :=
  if u < 2147483648 then (u : Int) else (u : Int) - 4294967296

/-- What `printf` writes for `%d`. -/
def printf_d (x : Int) : String :=
  if x < 0 then "-" ++ Nat.repr x.natAbs else Nat.repr x.natAbs

/-- What `printf("%.*s", indent, "\t\t\t\t")` writes: at most `indent` characters
of the four tabs, all four when the precision is negative. -/
def tabs (indent : Int) : String :=
  if indent < 0 then "\t\t\t\t" else String.mk (List.replicate (min indent.toNat 4) '\t')

/-- The character `msg[strlen(msg)-1]`; `none` when `msg` is empty, where the
index lies outside the string. -/
def last_char (msg : String) : Option Char := msg.data.getLast?

/-- The C function `tharness_vprint`. -/
def tharness_vprint (indent : Int) (msg : Option Message) (s : Sys) : Option Sys :=
  if tharness_can_output s.tharness then
    let s1 : Sys :=
      if s.tharness.at_new_line = true then { s with stdout := s.stdout ++ tabs indent } else s
    match msg with
    | none => some s1
    | some m =>
      match last_char m.fmt with
      | none => none
      | some c =>
        some { tharness := { s1.tharness with at_new_line := (c == '\n') },
               stdout := s1.stdout ++ m.text }
  else some s

/-- The C function `tharness_print`. -/
def tharness_print (indent : Int) (msg : Option Message) (s : Sys) : Option Sys :=
  tharness_vprint indent msg s

/-- The C function `tharness_vprint_line`. -/
def tharness_vprint_line (indent : Int) (msg : Option Message) (s : Sys) : Option Sys :=
  match msg with
  | none => some s
  | some m =>
    (tharness_vprint indent (some m) s).bind (tharness_print indent (some ⟨"\n", "\n"⟩))

/-- The C function `tharness_print_line`. -/
def tharness_print_line (indent : Int) (msg : Option Message) (s : Sys) : Option Sys :=
  tharness_vprint_line indent msg s

/-- The C function `tharness_print_passed`. -/
def tharness_print_passed (file func : String) (line : Int) (s : Sys) : Option Sys :=
  tharness_print_line 0
    (some ⟨"%s:%d: %s: OK", file ++ ":" ++ printf_d line ++ ": " ++ func ++ ": OK"⟩) s

/-- The C function `tharness_print_failed`. -/
def tharness_print_failed (file func : String) (line : Int) (s : Sys) : Option Sys :=
  tharness_print_line 0
    (some ⟨"%s:%d: %s: FAIL", file ++ ":" ++ printf_d line ++ ": " ++ func ++ ": FAIL"⟩) s

/-- The C function `tharness_print_ignored`. -/
def tharness_print_ignored (file func : String) (line : Int) (s : Sys) : Option Sys :=
  tharness_print_line 0
    (some ⟨"%s:%d: %s: IGNORED", file ++ ":" ++ printf_d line ++ ": " ++ func ++ ": IGNORED"⟩) s

/-- Feeding one event to the global of a `Sys`. -/
def feed (event : TharnessEvent) (s : Sys) : Sys :=
  { s with tharness := tharness_handle s.tharness event }

/-- The C function `tharness_expect`. -/
def tharness_expect (condition : Bool) (file func : String) (line : Int) (str : String)
    (msg : Option Message) (s : Sys) : Option Sys :=
  let s1 := feed THARNESS_RUN_EXPECT_EVENT s
  if s1.tharness.state = THARNESS_NORMAL_STATE then
    if condition then
      tharness_print_passed file func line (feed THARNESS_PASSED_EVENT s1)
    else
      ((tharness_print_failed file func line (feed THARNESS_FAILED_EVENT s1)).bind
        (tharness_print_line 1 (some ⟨"Expected %s", "Expected " ++ str⟩))).bind
        (tharness_vprint_line 1 msg)
  else some s1

/-- The C function `tharness_pass`. -/
def tharness_pass (file func : String) (line : Int) (msg : Option Message) (s : Sys) :
    Option Sys :=
  (tharness_print_passed file func line (feed THARNESS_PASSED_EVENT s)).bind
    (tharness_vprint_line 1 msg)

/-- The C function `tharness_fail`. -/
def tharness_fail (file func : String) (line : Int) (msg : Option Message) (s : Sys) :
    Option Sys :=
  (tharness_print_failed file func line (feed THARNESS_FAILED_EVENT s)).bind
    (tharness_vprint_line 1 msg)

/-- The C function `tharness_ignore`. -/
def tharness_ignore (file func : String) (line : Int) (msg : Option Message) (s : Sys) :
    Option Sys :=
  (tharness_print_ignored file func line (feed THARNESS_IGNORED_EVENT s)).bind
    (tharness_vprint_line 1 msg)

/-- The C function `tharness_run`: feed RunTest, then call the test body. -/
def tharness_run (test : Sys → Option Sys) (s : Sys) : Option Sys :=
  test (feed THARNESS_RUN_TEST_EVENT s)

/-- The summary message of `tharness_results`: the format
`"\n%d Tests %d Failed %d Ignored"` applied to the three counters. -/
def summary_message (t : Tharness) : Message :=
  ⟨"\n%d Tests %d Failed %d Ignored",
   "\n" ++ printf_d (to_int t.total) ++ " Tests " ++ printf_d (to_int t.failures) ++
     " Failed " ++ printf_d (to_int t.ignores) ++ " Ignored"⟩

/-- The C function `tharness_results`; the second component is the returned `int`. -/
def tharness_results (s : Sys) : Option (Sys × Int) :=
  let s1 := feed THARNESS_RESULTS_EVENT s
  ((tharness_print_line 0 (some (summary_message s1.tharness)) s1).bind
    (fun s2 =>
      if s2.tharness.failures = 0 then tharness_print_line 0 (some ⟨"OK", "OK"⟩) s2
      else tharness_print_line 0 (some ⟨"FAIL", "FAIL"⟩) s2)).map
    (fun s3 => (s3, to_int s3.tharness.failures))

/-! ## Test bodies -/

/-- One call of a test body into the public interface of the harness. -/
inductive Call where
  | expect (condition : Bool) (file func : String) (line : Int) (str : String)
      (msg : Option Message)
  | print (indent : Int) (msg : Option Message)
  | print_line (indent : Int) (msg : Option Message)
  | pass (file func : String) (line : Int) (msg : Option Message)
  | fail (file func : String) (line : Int) (msg : Option Message)
  | ignore (file func : String) (line : Int) (msg : Option Message)
deriving DecidableEq, Repr

/-- Performing one call. -/
def Call.exec : Call → Sys → Option Sys
  | .expect condition file func line str msg => tharness_expect condition file func line str msg
  | .print indent msg => tharness_print indent msg
  | .print_line indent msg => tharness_print_line indent msg
  | .pass file func line msg => tharness_pass file func line msg
  | .fail file func line msg => tharness_fail file func line msg
  | .ignore file func line msg => tharness_ignore file func line msg

/-- A test body that performs the given calls one after the other. -/
def exec_calls : List Call → Sys → Option Sys
  | [], s => some s
  | c :: cs, s => (c.exec s).bind (exec_calls cs)

/-! ## Sessions of events -/

/-- The events of one test: RunTest, then the events of the test body. -/
def run_test_events (t : Tharness) (body : List TharnessEvent) : Tharness :=
  run_events (tharness_handle t THARNESS_RUN_TEST_EVENT) body

/-- A session: the tests one after the other. -/
def run_session (t : Tharness) (tests : List (List TharnessEvent)) : Tharness :=
  tests.foldl run_test_events t

/-- The state in which each test of a session ends, in order. -/
def end_states (t : Tharness) : List (List TharnessEvent) → List TharnessState
  | [] => []
  | body :: rest =>
    (run_test_events t body).state :: end_states (run_test_events t body) rest

/-- The events a test body can cause: Failed, Passed, Ignored and RunExpect. -/
def body_event (e : TharnessEvent) : Bool :=
  e == THARNESS_FAILED_EVENT || e == THARNESS_PASSED_EVENT ||
  e == THARNESS_IGNORED_EVENT || e == THARNESS_RUN_EXPECT_EVENT

/-- The first Failed-or-Ignored event of a test body, if there is one. -/
def first_signal (body : List TharnessEvent) : Option TharnessEvent :=
  body.find? (fun e => e == THARNESS_FAILED_EVENT || e == THARNESS_IGNORED_EVENT)

/-- The failed states: Failing and Failed. -/
def is_failed_state (s : TharnessState) : Bool :=
  s == THARNESS_FAILING_STATE || s == THARNESS_FAILED_STATE

/-- The ignored states: Ignoring and Ignored. -/
def is_ignored_state (s : TharnessState) : Bool :=
  s == THARNESS_IGNORING_STATE || s == THARNESS_IGNORED_STATE

/-- The events a call feeds to the state machine when the global is `t`:
`tharness_expect` feeds RunExpect and, when the state is then Normal, Passed or
Failed; `tharness_pass`, `tharness_fail` and `tharness_ignore` feed one event;
the print functions feed none. -/
def call_events (c : Call) (t : Tharness) : List TharnessEvent :=
  match c with
  | .expect condition _ _ _ _ _ =>
    if (tharness_handle t THARNESS_RUN_EXPECT_EVENT).state = THARNESS_NORMAL_STATE then
      [THARNESS_RUN_EXPECT_EVENT,
        if condition then THARNESS_PASSED_EVENT else THARNESS_FAILED_EVENT]
    else [THARNESS_RUN_EXPECT_EVENT]
  | .print _ _ => []
  | .print_line _ _ => []
  | .pass _ _ _ _ => [THARNESS_PASSED_EVENT]
  | .fail _ _ _ _ => [THARNESS_FAILED_EVENT]
  | .ignore _ _ _ _ => [THARNESS_IGNORED_EVENT]

/-- The events a list of calls feeds to the state machine, in order. -/
def body_events : List Call → Tharness → List TharnessEvent
  | [], _ => []
  | c :: cs, t => call_events c t ++ body_events cs (run_events t (call_events c t))

/-! ## The demonstration tests of `tests/main.c`

`file` is the expansion of `__FILE__`. `EXPECT(c)` passes a null message,
`EXPECT(c, m)` passes `m`; `TEST_PASS(...)`, `TEST_FAIL(...)` and
`TEST_IGNORE(...)` drop their arguments and pass a null message. -/

/-- The calls of `TEST(test_assert)`. -/
def test_assert (file : String) : List Call :=
  [ .expect true file "test_assert" 6 "1" none,
    .print_line 1 (some ⟨"Passing test message", "Passing test message"⟩),
    .print_line 1 (some ⟨"Another passing test message", "Another passing test message"⟩),
    .expect false file "test_assert" 11 "0" none,
    .print_line 1 (some ⟨"Test message", "Test message"⟩),
    .print_line 1 (some ⟨"Another test message", "Another test message"⟩) ]

/-- The calls of `TEST(test_failed)`. -/
def test_failed (file : String) : List Call :=
  [ .fail file "test_failed" 18 none,
    .print_line 1 (some ⟨"Output after fail", "Output after fail"⟩) ]

/-- The calls of `TEST(test_ignored)`. -/
def test_ignored (file : String) : List Call :=
  [ .ignore file "test_ignored" 24 none,
    .print_line 1 (some ⟨"Output after ignore", "Output after ignore"⟩) ]

/-- The calls of `TEST(test_ints)`, with `a = 10` and `b = 20`. -/
def test_ints (file : String) : List Call :=
  let a : Int := 10
  let b : Int := 20
  [ .expect (decide (a ≠ b)) file "test_ints" 34 "a != b" none,
    .expect (decide (a < b)) file "test_ints" 35 "a < b" none,
    .expect (decide (a = b)) file "test_ints" 38 "a == b"
      (some ⟨"This is a test", "This is a test"⟩),
    .expect (decide (a > b)) file "test_ints" 39 "a > b" none ]

/-- The calls of `TEST(test_arrays)`: the first loop compares `a[i]` with
`a[i]`, the second `a[i]` with `b[i]`; each loop is followed by `TEST_PASS`. -/
def test_arrays (file : String) : List Call :=
  let a : List Int := [0, 10, 20, 30, 40, 50, 60, 70, 80, 90]
  let b : List Int := [0, 10, 20, 30, 41, 50, 60, 70, 80, 90]
  (List.range 10).filterMap
      (fun i => if a.getD i 0 ≠ a.getD i 0 then some (Call.fail file "test_arrays" 53 none)
                else none) ++
    [Call.pass file "test_arrays" 57 none] ++
    (List.range 10).filterMap
      (fun i => if a.getD i 0 ≠ b.getD i 0 then some (Call.fail file "test_arrays" 64 none)
                else none) ++
    [Call.pass file "test_arrays" 68 none]

/-- The C function `main` of `tests/main.c`, run on the process state `s`. -/
def main (file : String) (s : Sys) : Option (Sys × Int) :=
  (((((tharness_run (exec_calls (test_assert file))
        { s with tharness := tharness_init false s.tharness }).bind
      (tharness_run (exec_calls (test_failed file)))).bind
      (tharness_run (exec_calls (test_ignored file)))).bind
      (tharness_run (exec_calls (test_ints file)))).bind
      (tharness_run (exec_calls (test_arrays file)))).bind
    tharness_results

/-- The process state at program start: the zero-initialised global and nothing
written yet. -/
def sys_start : Sys := { tharness := tharness_zero, stdout := "" }

/-- The events of the five demonstration tests, each body taken from a harness
in state Normal. -/
def demo_session : List (List TharnessEvent) :=
  [ body_events (test_assert "main.c") tharness_zero,
    body_events (test_failed "main.c") tharness_zero,
    body_events (test_ignored "main.c") tharness_zero,
    body_events (test_ints "main.c") tharness_zero,
    body_events (test_arrays "main.c") tharness_zero ]

/-! ## Predicates on calls -/

/-- The part of the global the state machine owns: everything but `at_new_line`,
which only the print functions write. -/
def machine (t : Tharness) : Tharness := { t with at_new_line := false }

/-- The message argument of a call. -/
def Call.msg : Call → Option Message
  | .expect _ _ _ _ _ msg => msg
  | .print _ msg => msg
  | .print_line _ msg => msg
  | .pass _ _ _ msg => msg
  | .fail _ _ _ msg => msg
  | .ignore _ _ _ msg => msg

/-- The message of the call is null or has a non-empty format string, so that
`msg[strlen(msg)-1]` lies inside the string. -/
def Call.msg_ok (c : Call) : Bool :=
  match c.msg with
  | none => true
  | some m => (last_char m.fmt).isSome

/-- The reporting calls: expect, pass, fail and ignore. -/
def Call.is_report : Call → Bool
  | .expect _ _ _ _ _ _ => true
  | .pass _ _ _ _ => true
  | .fail _ _ _ _ => true
  | .ignore _ _ _ _ => true
  | _ => false

/-- The calls of a passing test: passing expects, pass, print and print_line. -/
def Call.is_passing : Call → Bool
  | .expect condition _ _ _ _ _ => condition
  | .pass _ _ _ _ => true
  | .print _ _ => true
  | .print_line _ _ => true
  | _ => false

/-- The failure signals: a failing expect, and fail. -/
def Call.is_failure : Call → Bool
  | .expect condition _ _ _ _ _ => !condition
  | .fail _ _ _ _ => true
  | _ => false

/-! ## Diagnostic blocks -/

/-- The diagnostic block of a failing expect as the specification describes it:
the marker line `<file>:<line>: <function>: FAIL`, the line `Expected <expression>`
behind one tab and, when a message is supplied, the formatted message behind
one tab on a line of its own. -/
def diagnostic_block (file func : String) (line : Int) (str : String)
    (msg : Option Message) : String :=
  file ++ ":" ++ printf_d line ++ ": " ++ func ++ ": FAIL" ++ "\n" ++
    "\t" ++ "Expected " ++ str ++ "\n" ++
    (match msg with
     | none => ""
     | some m => "\t" ++ m.text ++ "\n")

/-- The format string of the message ends in a newline. -/
def ends_in_newline (m : Message) : Bool := last_char m.fmt == some '\n'

/-- What `tharness_vprint_line(1, msg, args)` writes at the start of a line when
output is permitted: nothing for a null message; else a tab, the text, one
more tab when the format string ends in a newline, and a newline. -/
def message_lines : Option Message → String
  | none => ""
  | some m => "\t" ++ m.text ++ (if ends_in_newline m = true then "\t" else "") ++ "\n"

/-! ## Predicates on event sequences -/

/-- No test is counted twice: `failures + ignores` does not exceed `total`, and
stays below it while the running test is still in state Normal. -/
def counted (t : Tharness) : Prop :=
  t.failures + t.ignores ≤ t.total ∧
  (t.state = THARNESS_NORMAL_STATE → t.failures + t.ignores < t.total)

/-- The events fed before the first RunTest event. -/
def before_first_run_test (l : List TharnessEvent) : List TharnessEvent :=
  l.takeWhile (fun e => e != THARNESS_RUN_TEST_EVENT)

/-- The events fed before the first Results event. -/
def before_results (l : List TharnessEvent) : List TharnessEvent :=
  l.takeWhile (fun e => e != THARNESS_RESULTS_EVENT)

/-- The events of the whole demonstration run after `tharness_init`: each test
is RunTest followed by the events of its body. -/
def demo_events : List TharnessEvent :=
  demo_session.flatMap (fun body => THARNESS_RUN_TEST_EVENT :: body)

/-- The ignore signal: a call of `tharness_ignore`. -/
def Call.is_ignore : Call → Bool
  | .ignore _ _ _ _ => true
  | _ => false

/-- The calls of `tharness_pass`. -/
def Call.is_pass : Call → Bool
  | .pass _ _ _ _ => true
  | _ => false

/-- The calls of `tharness_print` and `tharness_print_line`. -/
def Call.is_print : Call → Bool
  | .print _ _ => true
  | .print_line _ _ => true
  | _ => false

/-! ## Runs of public calls -/

/-- One call of the public interface in the order the program makes it:
`run_test` is the entry of `tharness_run` (the calls of the test body are the
items that follow it), `call` is expect, pass, fail, ignore, print or
print_line, and `results` is `tharness_results`. -/
inductive PublicCall where
  | run_test
  | call (c : Call)
  | results
deriving DecidableEq, Repr

/-- The message of the call, if it has one, is null or has a non-empty format. -/
def PublicCall.msg_ok : PublicCall → Bool
  | .call c => c.msg_ok
  | _ => true

/-- Performing one public call: the new process state and, for `results`, the
returned value.  For `run_test` this is `tharness_run` up to the call of the
test body. -/
def PublicCall.exec : PublicCall → Sys → Option (Sys × Option Int)
  | .run_test, s => (tharness_run some s).map (fun s' => (s', none))
  | .call c, s => (c.exec s).map (fun s' => (s', none))
  | .results, s => (tharness_results s).map (fun r => (r.1, some r.2))

/-- What a run shows of the verdict after one public call: the state, the three
counters and the value returned. -/
structure Step where
  state : TharnessState
  total : Nat
  failures : Nat
  ignores : Nat
  returned : Option Int
deriving DecidableEq, Repr

/-- The step recorded after a public call. -/
def step_of (r : Sys × Option Int) : Step :=
  { state := r.1.tharness.state, total := r.1.tharness.total,
    failures := r.1.tharness.failures, ignores := r.1.tharness.ignores, returned := r.2 }

/-- A run of public calls: the final process state and the steps passed through. -/
def run_calls : List PublicCall → Sys → Option (Sys × List Step)
  | [], s => some (s, [])
  | p :: ps, s =>
    (p.exec s).bind (fun r => (run_calls ps r.1).map (fun q => (q.1, step_of r :: q.2)))

/-- The part of the global that makes the verdict: everything but `at_new_line`
and `verbose`. -/
def verdict (t : Tharness) : Tharness := { t with at_new_line := false, verbose := false }

/-- The calls of `main` after `tharness_init`, in order. -/
def demo_program (file : String) : List PublicCall :=
  PublicCall.run_test :: (test_assert file).map PublicCall.call ++
  PublicCall.run_test :: (test_failed file).map PublicCall.call ++
  PublicCall.run_test :: (test_ignored file).map PublicCall.call ++
  PublicCall.run_test :: (test_ints file).map PublicCall.call ++
  PublicCall.run_test :: (test_arrays file).map PublicCall.call ++
  [PublicCall.results]

/-! ## The transition table of the specification -/

/-- The next-state column of the 6x6 table of the specification, row by row. -/
def table_next : TharnessState → TharnessEvent → TharnessState
  | THARNESS_NORMAL_STATE, THARNESS_FAILED_EVENT => THARNESS_FAILING_STATE
  | THARNESS_NORMAL_STATE, THARNESS_PASSED_EVENT => THARNESS_NORMAL_STATE
  | THARNESS_NORMAL_STATE, THARNESS_IGNORED_EVENT => THARNESS_IGNORING_STATE
  | THARNESS_NORMAL_STATE, THARNESS_RUN_TEST_EVENT => THARNESS_NORMAL_STATE
  | THARNESS_NORMAL_STATE, THARNESS_RUN_EXPECT_EVENT => THARNESS_NORMAL_STATE
  | THARNESS_NORMAL_STATE, THARNESS_RESULTS_EVENT => THARNESS_RESULTS_STATE
  | THARNESS_IGNORING_STATE, THARNESS_FAILED_EVENT => THARNESS_IGNORED_STATE
  | THARNESS_IGNORING_STATE, THARNESS_PASSED_EVENT => THARNESS_IGNORED_STATE
  | THARNESS_IGNORING_STATE, THARNESS_IGNORED_EVENT => THARNESS_IGNORED_STATE
  | THARNESS_IGNORING_STATE, THARNESS_RUN_TEST_EVENT => THARNESS_NORMAL_STATE
  | THARNESS_IGNORING_STATE, THARNESS_RUN_EXPECT_EVENT => THARNESS_IGNORED_STATE
  | THARNESS_IGNORING_STATE, THARNESS_RESULTS_EVENT => THARNESS_RESULTS_STATE
  | THARNESS_IGNORED_STATE, THARNESS_FAILED_EVENT => THARNESS_IGNORED_STATE
  | THARNESS_IGNORED_STATE, THARNESS_PASSED_EVENT => THARNESS_IGNORED_STATE
  | THARNESS_IGNORED_STATE, THARNESS_IGNORED_EVENT => THARNESS_IGNORED_STATE
  | THARNESS_IGNORED_STATE, THARNESS_RUN_TEST_EVENT => THARNESS_NORMAL_STATE
  | THARNESS_IGNORED_STATE, THARNESS_RUN_EXPECT_EVENT => THARNESS_IGNORED_STATE
  | THARNESS_IGNORED_STATE, THARNESS_RESULTS_EVENT => THARNESS_RESULTS_STATE
  | THARNESS_FAILING_STATE, THARNESS_FAILED_EVENT => THARNESS_FAILED_STATE
  | THARNESS_FAILING_STATE, THARNESS_PASSED_EVENT => THARNESS_FAILED_STATE
  | THARNESS_FAILING_STATE, THARNESS_IGNORED_EVENT => THARNESS_FAILED_STATE
  | THARNESS_FAILING_STATE, THARNESS_RUN_TEST_EVENT => THARNESS_NORMAL_STATE
  | THARNESS_FAILING_STATE, THARNESS_RUN_EXPECT_EVENT => THARNESS_FAILED_STATE
  | THARNESS_FAILING_STATE, THARNESS_RESULTS_EVENT => THARNESS_RESULTS_STATE
  | THARNESS_FAILED_STATE, THARNESS_FAILED_EVENT => THARNESS_FAILED_STATE
  | THARNESS_FAILED_STATE, THARNESS_PASSED_EVENT => THARNESS_FAILED_STATE
  | THARNESS_FAILED_STATE, THARNESS_IGNORED_EVENT => THARNESS_FAILED_STATE
  | THARNESS_FAILED_STATE, THARNESS_RUN_TEST_EVENT => THARNESS_NORMAL_STATE
  | THARNESS_FAILED_STATE, THARNESS_RUN_EXPECT_EVENT => THARNESS_FAILED_STATE
  | THARNESS_FAILED_STATE, THARNESS_RESULTS_EVENT => THARNESS_RESULTS_STATE
  | THARNESS_RESULTS_STATE, _ => THARNESS_RESULTS_STATE

/-- The counter annotations of the table: `(+1 failures)` stands in the cell
(Normal, Failed) alone. -/
def table_failures (s : TharnessState) (e : TharnessEvent) (failures : Nat) : Nat :=
  if s = THARNESS_NORMAL_STATE ∧ e = THARNESS_FAILED_EVENT then uinc failures else failures

/-- The counter annotations of the table: `(+1 ignores)` stands in the cell
(Normal, Ignored) alone. -/
def table_ignores (s : TharnessState) (e : TharnessEvent) (ignores : Nat) : Nat :=
  if s = THARNESS_NORMAL_STATE ∧ e = THARNESS_IGNORED_EVENT then uinc ignores else ignores

/-- The counter annotations of the table: `(+1 total)` stands in the RunTest
column of the five rows other than Results. -/
def table_total (s : TharnessState) (e : TharnessEvent) (total : Nat) : Nat :=
  if s ≠ THARNESS_RESULTS_STATE ∧ e = THARNESS_RUN_TEST_EVENT then uinc total else total

/-! ## Theorems -/

/-- C1: for every state and every event, `tharness_handle` moves to the next
state of the 6x6 table and changes the counters as the table says: `failures`
is incremented in cell (Normal, Failed) only, `ignores` in cell
(Normal, Ignored) only, `total` on RunTest in the five states other than
Results only (each increment being the `++` of the C type `unsigned`), and
nothing else changes; in state Results nothing changes at all. -/
theorem handle_follows_table (t : Tharness) (e : TharnessEvent) :
    tharness_handle t e =
      { t with state := table_next t.state e,
               failures := table_failures t.state e t.failures,
               ignores := table_ignores t.state e t.ignores,
               total := table_total t.state e t.total } ∧
    (t.state = THARNESS_RESULTS_STATE → tharness_handle t e = t) := by
  obtain ⟨tot, f, i, st, nl, v⟩ := t
  cases st <;> cases e <;>
    simp [tharness_handle, table_next, table_failures, table_ignores, table_total]

/-- C1, instance: in cell (Normal, Failed) with `failures = 3` the counter becomes 4
and the state Failing, and the same harness in state Results absorbs the event. -/
theorem handle_follows_table_witness :
    tharness_handle { tharness_zero with failures := 3 } THARNESS_FAILED_EVENT =
      { tharness_zero with failures := 4, state := THARNESS_FAILING_STATE } ∧
    tharness_handle { tharness_zero with state := THARNESS_RESULTS_STATE }
        THARNESS_RUN_TEST_EVENT =
      { tharness_zero with state := THARNESS_RESULTS_STATE } := by
  refine ⟨?_, ?_⟩
  · have h := (handle_follows_table { tharness_zero with failures := 3 }
      THARNESS_FAILED_EVENT).1
    rw [h]; decide
  · exact (handle_follows_table { tharness_zero with state := THARNESS_RESULTS_STATE }
      THARNESS_RUN_TEST_EVENT).2 rfl

/-- C2: `tharness_can_output` is true exactly when `verbose` is set or the state
is Failing, Ignoring or Results; with `verbose = false` it is false in Normal,
Failed and Ignored. -/
theorem can_output_iff (t : Tharness) :
    (tharness_can_output t = true ↔
      (t.verbose = true ∨ t.state = THARNESS_FAILING_STATE ∨
        t.state = THARNESS_IGNORING_STATE ∨ t.state = THARNESS_RESULTS_STATE)) ∧
    (t.verbose = false →
      (t.state = THARNESS_NORMAL_STATE ∨ t.state = THARNESS_FAILED_STATE ∨
        t.state = THARNESS_IGNORED_STATE) →
      tharness_can_output t = false) := by
  obtain ⟨tot, f, i, st, nl, v⟩ := t
  cases st <;> cases v <;> simp [tharness_can_output]

/-- C2, instance: after a failed test has settled, a quiet harness may not print. -/
theorem can_output_iff_witness :
    tharness_can_output { tharness_zero with state := THARNESS_FAILED_STATE } = false :=
  (can_output_iff { tharness_zero with state := THARNESS_FAILED_STATE }).2 rfl
    (Or.inr (Or.inl rfl))

/-! ### Sessions -/

theorem run_events_nil (t : Tharness) : run_events t [] = t := rfl

theorem run_events_cons (t : Tharness) (e : TharnessEvent) (l : List TharnessEvent) :
    run_events t (e :: l) = run_events (tharness_handle t e) l := rfl

theorem run_events_append (t : Tharness) (l1 l2 : List TharnessEvent) :
    run_events t (l1 ++ l2) = run_events (run_events t l1) l2 := by
  simp [run_events, List.foldl_append]

/-- Once a test has failed, body events change neither counter and keep the
state among Failing and Failed. -/
theorem body_after_failure (body : List TharnessEvent) :
    ∀ t : Tharness, (∀ e ∈ body, body_event e = true) →
      is_failed_state t.state = true →
      (run_events t body).total = t.total ∧
      (run_events t body).failures = t.failures ∧
      (run_events t body).ignores = t.ignores ∧
      is_failed_state (run_events t body).state = true := by
  induction body with
  | nil => intro t _ h; exact ⟨rfl, rfl, rfl, h⟩
  | cons e l ih =>
    intro t hb hs
    have he := hb e (List.mem_cons_self _ _)
    have hl : ∀ x ∈ l, body_event x = true := fun x hx => hb x (List.mem_cons_of_mem _ hx)
    rw [run_events_cons]
    obtain ⟨tot, f, i, st, nl, v⟩ := t
    cases st <;> cases e <;> simp [is_failed_state, body_event] at hs he <;>
      exact ih _ hl (by simp [tharness_handle, is_failed_state])


/-- Once a test is ignored, body events change neither counter and keep the
state among Ignoring and Ignored. -/
theorem body_after_ignore (body : List TharnessEvent) :
    ∀ t : Tharness, (∀ e ∈ body, body_event e = true) →
      is_ignored_state t.state = true →
      (run_events t body).total = t.total ∧
      (run_events t body).failures = t.failures ∧
      (run_events t body).ignores = t.ignores ∧
      is_ignored_state (run_events t body).state = true := by
  induction body with
  | nil => intro t _ h; exact ⟨rfl, rfl, rfl, h⟩
  | cons e l ih =>
    intro t hb hs
    have he := hb e (List.mem_cons_self _ _)
    have hl : ∀ x ∈ l, body_event x = true := fun x hx => hb x (List.mem_cons_of_mem _ hx)
    rw [run_events_cons]
    obtain ⟨tot, f, i, st, nl, v⟩ := t
    cases st <;> cases e <;> simp [is_ignored_state, body_event] at hs he <;>
      exact ih _ hl (by simp [tharness_handle, is_ignored_state])

theorem failed_not_ignored (s : TharnessState) (h : is_failed_state s = true) :
    is_ignored_state s = false := by
  cases s <;> simp_all [is_failed_state, is_ignored_state]

theorem ignored_not_failed (s : TharnessState) (h : is_ignored_state s = true) :
    is_failed_state s = false := by
  cases s <;> simp_all [is_failed_state, is_ignored_state]

/-- The effect of a test body on a harness in state Normal is decided by the
first Failed-or-Ignored event of the body. -/
theorem body_from_normal (body : List TharnessEvent) :
    ∀ t : Tharness, (∀ e ∈ body, body_event e = true) →
      t.state = THARNESS_NORMAL_STATE →
      (run_events t body).total = t.total ∧
      (run_events t body).failures =
        (if first_signal body = some THARNESS_FAILED_EVENT then uinc t.failures
         else t.failures) ∧
      (run_events t body).ignores =
        (if first_signal body = some THARNESS_IGNORED_EVENT then uinc t.ignores
         else t.ignores) ∧
      is_failed_state (run_events t body).state =
        decide (first_signal body = some THARNESS_FAILED_EVENT) ∧
      is_ignored_state (run_events t body).state =
        decide (first_signal body = some THARNESS_IGNORED_EVENT) ∧
      (run_events t body).state ≠ THARNESS_RESULTS_STATE := by
  induction body with
  | nil =>
    intro t _ h
    simp [run_events_nil, first_signal, h, is_failed_state, is_ignored_state]
  | cons e l ih =>
    intro t hb hs
    have he := hb e (List.mem_cons_self _ _)
    have hl : ∀ x ∈ l, body_event x = true := fun x hx => hb x (List.mem_cons_of_mem _ hx)
    rw [run_events_cons]
    obtain ⟨tot, f, i, st, nl, v⟩ := t
    simp only at hs
    subst hs
    cases e
    · -- Failed
      have h := body_after_failure l
        (tharness_handle ⟨tot, f, i, THARNESS_NORMAL_STATE, nl, v⟩ THARNESS_FAILED_EVENT) hl
        (by simp [tharness_handle, is_failed_state])
      obtain ⟨h1, h2, h3, h4⟩ := h
      have h5 := failed_not_ignored _ h4
      refine ⟨h1, ?_, ?_, ?_, ?_, ?_⟩
      · simpa [first_signal, tharness_handle] using h2
      · simpa [first_signal, tharness_handle] using h3
      · simpa [first_signal] using h4
      · simpa [first_signal] using h5
      · intro hc; rw [hc] at h4; simp [is_failed_state] at h4
    · -- Passed
      have h := ih (tharness_handle ⟨tot, f, i, THARNESS_NORMAL_STATE, nl, v⟩
        THARNESS_PASSED_EVENT) hl rfl
      simpa [first_signal, tharness_handle] using h
    · -- Ignored
      have h := body_after_ignore l
        (tharness_handle ⟨tot, f, i, THARNESS_NORMAL_STATE, nl, v⟩ THARNESS_IGNORED_EVENT) hl
        (by simp [tharness_handle, is_ignored_state])
      obtain ⟨h1, h2, h3, h4⟩ := h
      have h5 := ignored_not_failed _ h4
      refine ⟨h1, ?_, ?_, ?_, ?_, ?_⟩
      · simpa [first_signal, tharness_handle] using h2
      · simpa [first_signal, tharness_handle] using h3
      · simpa [first_signal] using h5
      · simpa [first_signal] using h4
      · intro hc; rw [hc] at h4; simp [is_ignored_state] at h4
    · simp [body_event] at he
    · have h := ih (tharness_handle ⟨tot, f, i, THARNESS_NORMAL_STATE, nl, v⟩
        THARNESS_RUN_EXPECT_EVENT) hl rfl
      simpa [first_signal, tharness_handle] using h
    · simp [body_event] at he

theorem run_test_from (t : Tharness) (h : t.state ≠ THARNESS_RESULTS_STATE) :
    tharness_handle t THARNESS_RUN_TEST_EVENT =
      { t with state := THARNESS_NORMAL_STATE, total := uinc t.total } := by
  obtain ⟨tot, f, i, st, nl, v⟩ := t
  cases st <;> simp [tharness_handle] at h ⊢


theorem iterate_uinc (n : Nat) : ∀ x : Nat, x + n < 4294967296 → uinc^[n] x = x + n := by
  induction n with
  | zero => intro x _; rfl
  | succ k ih =>
    intro x h
    rw [Function.iterate_succ_apply]
    have hx : uinc x = x + 1 := by
      unfold uinc
      exact Nat.mod_eq_of_lt (by omega)
    rw [hx, ih (x + 1) (by omega)]
    omega

theorem run_session_cons (t : Tharness) (body : List TharnessEvent)
    (rest : List (List TharnessEvent)) :
    run_session t (body :: rest) = run_session (run_test_events t body) rest := rfl

/-- One whole test, started in a state other than Results. -/
theorem run_test_events_effect (t : Tharness) (body : List TharnessEvent)
    (hs : t.state ≠ THARNESS_RESULTS_STATE) (hb : ∀ e ∈ body, body_event e = true) :
    (run_test_events t body).total = uinc t.total ∧
    (run_test_events t body).failures =
      (if first_signal body = some THARNESS_FAILED_EVENT then uinc t.failures
       else t.failures) ∧
    (run_test_events t body).ignores =
      (if first_signal body = some THARNESS_IGNORED_EVENT then uinc t.ignores
       else t.ignores) ∧
    is_failed_state (run_test_events t body).state =
      decide (first_signal body = some THARNESS_FAILED_EVENT) ∧
    is_ignored_state (run_test_events t body).state =
      decide (first_signal body = some THARNESS_IGNORED_EVENT) ∧
    (run_test_events t body).state ≠ THARNESS_RESULTS_STATE := by
  have h := body_from_normal body (tharness_handle t THARNESS_RUN_TEST_EVENT) hb
    (by rw [run_test_from t hs])
  rw [run_test_from t hs] at h
  unfold run_test_events
  rw [run_test_from t hs]
  exact h

/-- The counters after a session started in a state other than Results: each
test increments `total`, and increments `failures` or `ignores` according to
its first Failed-or-Ignored event and to the state it ends in. -/
theorem session_general (tests : List (List TharnessEvent)) :
    ∀ t : Tharness, t.state ≠ THARNESS_RESULTS_STATE →
      (∀ body ∈ tests, ∀ e ∈ body, body_event e = true) →
      (run_session t tests).total = uinc^[tests.length] t.total ∧
      (run_session t tests).failures =
        uinc^[tests.countP
          (fun b => decide (first_signal b = some THARNESS_FAILED_EVENT))] t.failures ∧
      (run_session t tests).ignores =
        uinc^[tests.countP
          (fun b => decide (first_signal b = some THARNESS_IGNORED_EVENT))] t.ignores ∧
      (end_states t tests).countP is_failed_state =
        tests.countP (fun b => decide (first_signal b = some THARNESS_FAILED_EVENT)) ∧
      (end_states t tests).countP is_ignored_state =
        tests.countP (fun b => decide (first_signal b = some THARNESS_IGNORED_EVENT)) := by
  induction tests with
  | nil => intro t _ _; simp [run_session, end_states]
  | cons b rest ih =>
    intro t hs hb
    have hb1 : ∀ e ∈ b, body_event e = true := hb b (List.mem_cons_self _ _)
    have hrest : ∀ body ∈ rest, ∀ e ∈ body, body_event e = true :=
      fun body hbody => hb body (List.mem_cons_of_mem _ hbody)
    obtain ⟨h1, h2, h3, h4, h5, h6⟩ := run_test_events_effect t b hs hb1
    obtain ⟨i1, i2, i3, i4, i5⟩ := ih (run_test_events t b) h6 hrest
    rw [run_session_cons, i1, i2, i3]
    simp only [end_states, List.countP_cons, i4, i5, List.length_cons]
    rw [h1, h2, h3, h4, h5]
    refine ⟨?_, ?_, ?_, ?_, ?_⟩
    · rw [Function.iterate_succ_apply]
    · by_cases hf : first_signal b = some THARNESS_FAILED_EVENT
      · simp [hf, Function.iterate_succ_apply]
      · simp [hf]
    · by_cases hf : first_signal b = some THARNESS_IGNORED_EVENT
      · simp [hf, Function.iterate_succ_apply]
      · simp [hf]
    · rfl
    · rfl

theorem countP_le_length_lt {α : Type} (p : α → Bool) (l : List α) (h : l.length < 4294967296) :
    0 + l.countP p < 4294967296 := by
  have := List.countP_le_length p (l := l)
  omega

/-- C3: in a session of fewer than 2^32 tests begun by `tharness_init`, each test
being RunTest followed by Failed, Passed, Ignored and RunExpect events, `total`
is the number of tests, `failures` the number of tests that ended in Failing or
Failed, which is the number of tests whose first Failed-or-Ignored event is
Failed, and `ignores` the number of tests that ended in Ignoring or Ignored,
which is the number of tests whose first Failed-or-Ignored event is Ignored. -/
theorem session_counters (verbose : Bool) (t0 : Tharness)
    (tests : List (List TharnessEvent))
    (hbody : ∀ body ∈ tests, ∀ e ∈ body, body_event e = true)
    (hlen : tests.length < 4294967296) :
    (run_session (tharness_init verbose t0) tests).total = tests.length ∧
    (run_session (tharness_init verbose t0) tests).failures =
      (end_states (tharness_init verbose t0) tests).countP is_failed_state ∧
    (end_states (tharness_init verbose t0) tests).countP is_failed_state =
      tests.countP (fun b => decide (first_signal b = some THARNESS_FAILED_EVENT)) ∧
    (run_session (tharness_init verbose t0) tests).ignores =
      (end_states (tharness_init verbose t0) tests).countP is_ignored_state ∧
    (end_states (tharness_init verbose t0) tests).countP is_ignored_state =
      tests.countP (fun b => decide (first_signal b = some THARNESS_IGNORED_EVENT)) := by
  obtain ⟨h1, h2, h3, h4, h5⟩ :=
    session_general tests (tharness_init verbose t0) (by simp [tharness_init]) hbody
  have e1 := iterate_uinc tests.length 0 (by omega)
  have e2 := iterate_uinc _ 0 (countP_le_length_lt
    (fun b => decide (first_signal b = some THARNESS_FAILED_EVENT)) tests hlen)
  have e3 := iterate_uinc _ 0 (countP_le_length_lt
    (fun b => decide (first_signal b = some THARNESS_IGNORED_EVENT)) tests hlen)
  refine ⟨?_, ?_, h4, ?_, h5⟩
  · rw [h1]; simpa [tharness_init] using e1
  · rw [h2, h4]; simpa [tharness_init] using e2
  · rw [h3, h5]; simpa [tharness_init] using e3

/-- C3, instance: the demonstration run of `main` (test_assert, test_failed,
test_ignored, test_ints, test_arrays with `verbose = false`) ends with
`total = 5`, `failures = 4`, `ignores = 1`, and `tharness_results` returns 4;
the events of its five tests give the same counters. -/
theorem session_counters_witness :
    (main "main.c" sys_start).map
        (fun r => (r.1.tharness.total, r.1.tharness.failures, r.1.tharness.ignores, r.2)) =
      some (5, 4, 1, 4) ∧
    (run_session (tharness_init false tharness_zero) demo_session).total = 5 ∧
    (run_session (tharness_init false tharness_zero) demo_session).failures = 4 ∧
    (run_session (tharness_init false tharness_zero) demo_session).ignores = 1 ∧
    end_states (tharness_init false tharness_zero) demo_session =
      [THARNESS_FAILING_STATE, THARNESS_FAILING_STATE, THARNESS_IGNORING_STATE,
        THARNESS_FAILED_STATE, THARNESS_FAILED_STATE] := by
  obtain ⟨h1, h2, h3, h4, h5⟩ :=
    session_counters false tharness_zero demo_session (by decide) (by decide)
  refine ⟨by decide, ?_, ?_, ?_, by decide⟩
  · rw [h1]; decide
  · rw [h2, h3]; decide
  · rw [h4, h5]; decide


/-! ### Invariants of event sequences -/

theorem uinc_of_lt (x : Nat) (h : x + 1 < 4294967296) : uinc x = x + 1 := by
  unfold uinc
  exact Nat.mod_eq_of_lt h

theorem iterate_uinc_mod (n : Nat) : ∀ x : Nat, x < 4294967296 →
    uinc^[n] x = (x + n) % 4294967296 := by
  induction n with
  | zero => intro x h; simp [Nat.mod_eq_of_lt h]
  | succ k ih =>
    intro x h
    rw [Function.iterate_succ_apply', ih x h]
    unfold uinc
    omega

/-- In state Results every event sequence is absorbed. -/
theorem run_events_results (l : List TharnessEvent) :
    ∀ t : Tharness, t.state = THARNESS_RESULTS_STATE → run_events t l = t := by
  induction l with
  | nil => intro t _; rfl
  | cons e rest ih =>
    intro t h
    have he : tharness_handle t e = t := by
      obtain ⟨tot, f, i, st, nl, v⟩ := t
      simp only at h
      subst h
      rfl
    rw [run_events_cons, he, ih t h]

/-- One event keeps `counted`, as long as `total` does not wrap. -/
theorem counted_step (t : Tharness) (e : TharnessEvent) (hc : counted t)
    (hb : t.total + (if e = THARNESS_RUN_TEST_EVENT then 1 else 0) < 4294967296) :
    counted (tharness_handle t e) ∧
    (tharness_handle t e).total ≤
      t.total + (if e = THARNESS_RUN_TEST_EVENT then 1 else 0) := by
  obtain ⟨tot, f, i, st, nl, v⟩ := t
  obtain ⟨h1, h2⟩ := hc
  simp only at h1 h2 hb
  cases st <;> cases e <;>
    simp only [tharness_handle, counted, reduceCtorEq, if_true, if_false, forall_const,
      false_implies, and_true, true_implies, imp_false] at h1 h2 hb ⊢ <;>
    (try rw [uinc_of_lt _ (by omega)]) <;> (try omega)

/-- A harness that satisfies `counted` keeps it under every event sequence that
does not make `total` wrap. -/
theorem counted_run (l : List TharnessEvent) :
    ∀ t : Tharness, counted t →
      t.total + l.count THARNESS_RUN_TEST_EVENT < 4294967296 →
      ∀ k : Nat, counted (run_events t (l.take k)) := by
  induction l with
  | nil => intro t hc _ k; simpa [run_events_nil] using hc
  | cons e rest ih =>
    intro t hc hb k
    cases k with
    | zero => simpa [run_events_nil] using hc
    | succ j =>
      rw [List.take_succ_cons, run_events_cons]
      have hcount : (e :: rest).count THARNESS_RUN_TEST_EVENT =
          rest.count THARNESS_RUN_TEST_EVENT +
            (if e = THARNESS_RUN_TEST_EVENT then 1 else 0) := by
        rw [List.count_cons]
        cases e <;> simp
      rw [hcount] at hb
      obtain ⟨h1, h2⟩ := counted_step t e hc (by omega)
      exact ih _ h1 (by omega) j

/-- Before the first RunTest: a harness in state Normal with `failures` and
`ignores` zero keeps both within `total` when no Failed or Ignored event
arrives before the first RunTest and `total` does not wrap. -/
theorem bounded_run (l : List TharnessEvent) :
    ∀ t : Tharness, t.state = THARNESS_NORMAL_STATE → t.failures = 0 → t.ignores = 0 →
      (∀ e ∈ before_first_run_test l,
        e ≠ THARNESS_FAILED_EVENT ∧ e ≠ THARNESS_IGNORED_EVENT) →
      t.total + l.count THARNESS_RUN_TEST_EVENT < 4294967296 →
      ∀ k : Nat,
        (run_events t (l.take k)).failures ≤ (run_events t (l.take k)).total ∧
        (run_events t (l.take k)).ignores ≤ (run_events t (l.take k)).total := by
  induction l with
  | nil => intro t _ hf hi _ _ k; simp [run_events_nil, hf, hi]
  | cons e rest ih =>
    intro t hs hf hi hpre hb k
    cases k with
    | zero => simp [run_events_nil, hf, hi]
    | succ j =>
      rw [List.take_succ_cons, run_events_cons]
      obtain ⟨tot, f, i, st, nl, v⟩ := t
      simp only at hs hf hi hb
      subst hs hf hi
      have started : ∀ t1 : Tharness, counted t1 →
          t1.total + rest.count THARNESS_RUN_TEST_EVENT < 4294967296 →
          (run_events t1 (rest.take j)).failures ≤ (run_events t1 (rest.take j)).total ∧
          (run_events t1 (rest.take j)).ignores ≤ (run_events t1 (rest.take j)).total := by
        intro t1 hc hb1
        have h := (counted_run rest t1 hc hb1 j).1
        exact ⟨by omega, by omega⟩
      cases e
      · exact absurd rfl (hpre THARNESS_FAILED_EVENT (by simp [before_first_run_test])).1
      · exact ih _ rfl rfl rfl
          (fun x hx => hpre x (by simp [before_first_run_test] at hx ⊢; exact Or.inr hx))
          (by simpa using hb) j
      · exact absurd rfl (hpre THARNESS_IGNORED_EVENT (by simp [before_first_run_test])).2
      · simp only [List.count_cons_self] at hb
        apply started
        · simp only [tharness_handle, counted]
          rw [uinc_of_lt _ (by omega)]
          exact ⟨by omega, fun _ => by omega⟩
        · simp only [tharness_handle]
          rw [uinc_of_lt _ (by omega)]
          omega
      · exact ih _ rfl rfl rfl
          (fun x hx => hpre x (by simp [before_first_run_test] at hx ⊢; exact Or.inr hx))
          (by simpa using hb) j
      · apply started
        · simp [tharness_handle, counted]
        · simpa [tharness_handle] using hb


/-- RunTest fed `n` times to a harness outside state Results increments `total`
`n` times and leaves `failures` and `ignores` alone. -/
theorem run_replicate_run_test (n : Nat) :
    ∀ t : Tharness, t.state ≠ THARNESS_RESULTS_STATE →
      (run_events t (List.replicate n THARNESS_RUN_TEST_EVENT)).total = uinc^[n] t.total ∧
      (run_events t (List.replicate n THARNESS_RUN_TEST_EVENT)).failures = t.failures ∧
      (run_events t (List.replicate n THARNESS_RUN_TEST_EVENT)).ignores = t.ignores := by
  induction n with
  | zero => intro t _; exact ⟨rfl, rfl, rfl⟩
  | succ k ih =>
    intro t hs
    rw [List.replicate_succ, run_events_cons, run_test_from t hs]
    obtain ⟨h1, h2, h3⟩ :=
      ih { t with state := THARNESS_NORMAL_STATE, total := uinc t.total } (by simp)
    rw [h1, h2, h3, Function.iterate_succ_apply]
    exact ⟨rfl, rfl, rfl⟩

/-- C4, amended: for every verbose setting and every finite event sequence fed
after `tharness_init` in which no Failed or Ignored event arrives before the
first RunTest event and which holds fewer than 2^32 RunTest events,
`failures <= total` and `ignores <= total` hold after every event. -/
theorem counters_within_total (verbose : Bool) (t0 : Tharness) (l : List TharnessEvent)
    (hpre : ∀ e ∈ before_first_run_test l,
      e ≠ THARNESS_FAILED_EVENT ∧ e ≠ THARNESS_IGNORED_EVENT)
    (hcount : l.count THARNESS_RUN_TEST_EVENT < 4294967296) (k : Nat) :
    (run_events (tharness_init verbose t0) (l.take k)).failures ≤
      (run_events (tharness_init verbose t0) (l.take k)).total ∧
    (run_events (tharness_init verbose t0) (l.take k)).ignores ≤
      (run_events (tharness_init verbose t0) (l.take k)).total :=
  bounded_run l (tharness_init verbose t0) rfl rfl rfl hpre
    (by simpa [tharness_init] using hcount) k

/-- C4, amended, instance: the 21 events of the demonstration run of `main`;
after the last of them `failures = 4` and `ignores = 1` are within `total = 5`. -/
theorem counters_within_total_witness :
    (run_events (tharness_init false tharness_zero) (demo_events.take 21)).failures ≤
      (run_events (tharness_init false tharness_zero) (demo_events.take 21)).total ∧
    (run_events (tharness_init false tharness_zero) (demo_events.take 21)).ignores ≤
      (run_events (tharness_init false tharness_zero) (demo_events.take 21)).total :=
  counters_within_total false tharness_zero demo_events (by decide) (by decide) 21

/-- C4 as stated fails: `tharness_fail` called straight after `tharness_init`
feeds Failed in state Normal, which leaves `failures = 1` above `total = 0`;
and one failed test followed by 2^32 - 1 further RunTest events wraps `total`
to 0 below `failures = 1`. -/
theorem counters_within_total_counterexample :
    (run_events (tharness_init false tharness_zero) [THARNESS_FAILED_EVENT]).failures = 1 ∧
    (run_events (tharness_init false tharness_zero) [THARNESS_FAILED_EVENT]).total = 0 ∧
    ¬ ((run_events (tharness_init false tharness_zero) [THARNESS_FAILED_EVENT]).failures ≤
       (run_events (tharness_init false tharness_zero) [THARNESS_FAILED_EVENT]).total) ∧
    ¬ ((run_events (tharness_init false tharness_zero)
          ([THARNESS_RUN_TEST_EVENT, THARNESS_FAILED_EVENT] ++
            List.replicate 4294967295 THARNESS_RUN_TEST_EVENT)).failures ≤
       (run_events (tharness_init false tharness_zero)
          ([THARNESS_RUN_TEST_EVENT, THARNESS_FAILED_EVENT] ++
            List.replicate 4294967295 THARNESS_RUN_TEST_EVENT)).total) := by
  refine ⟨by decide, by decide, by decide, ?_⟩
  rw [run_events_append]
  obtain ⟨h1, h2, _⟩ := run_replicate_run_test 4294967295
    (run_events (tharness_init false tharness_zero)
      [THARNESS_RUN_TEST_EVENT, THARNESS_FAILED_EVENT]) (by decide)
  rw [h1, h2, iterate_uinc_mod 4294967295 _ (by decide)]
  decide


/-! ### The number of tests started -/

/-- An event other than Results does not lead into state Results. -/
theorem handle_not_results (t : Tharness) (e : TharnessEvent)
    (hs : t.state ≠ THARNESS_RESULTS_STATE) (he : e ≠ THARNESS_RESULTS_EVENT) :
    (tharness_handle t e).state ≠ THARNESS_RESULTS_STATE := by
  obtain ⟨tot, f, i, st, nl, v⟩ := t
  cases st <;> cases e <;> simp [tharness_handle] at hs he ⊢

/-- An event other than RunTest leaves `total` alone. -/
theorem handle_total (t : Tharness) (e : TharnessEvent)
    (he : e ≠ THARNESS_RUN_TEST_EVENT) : (tharness_handle t e).total = t.total := by
  obtain ⟨tot, f, i, st, nl, v⟩ := t
  cases st <;> cases e <;> simp [tharness_handle] at he ⊢

/-- From a state other than Results, `total` is incremented once for every
RunTest event that arrives before the first Results event. -/
theorem total_run (l : List TharnessEvent) :
    ∀ t : Tharness, t.state ≠ THARNESS_RESULTS_STATE →
      (run_events t l).total =
        uinc^[(before_results l).count THARNESS_RUN_TEST_EVENT] t.total := by
  induction l with
  | nil => intro t _; rfl
  | cons e rest ih =>
    intro t hs
    rw [run_events_cons]
    by_cases hres : e = THARNESS_RESULTS_EVENT
    · subst hres
      have h : (tharness_handle t THARNESS_RESULTS_EVENT).state = THARNESS_RESULTS_STATE := by
        obtain ⟨tot, f, i, st, nl, v⟩ := t
        cases st <;> rfl
      rw [run_events_results rest _ h, handle_total t _ (by decide)]
      simp [before_results]
    · have hb : before_results (e :: rest) = e :: before_results rest := by
        simp [before_results, hres]
      rw [hb, ih _ (handle_not_results t e hs hres)]
      by_cases hrun : e = THARNESS_RUN_TEST_EVENT
      · subst hrun
        rw [List.count_cons_self, Function.iterate_succ_apply, run_test_from t hs]
      · rw [handle_total t e hrun, List.count_cons_of_ne (fun h => hrun h.symm)]

/-- C5, amended: after `tharness_init`, `total` equals the number of RunTest
events that arrive before the first Results event, reduced modulo 2^32; so for
a sequence without a Results event that holds exactly N < 2^32 RunTest events
`total` is N.  A RunTest event in a state other than Results returns the
machine to Normal and increments `total` (the `++` of `unsigned`); in state
Results it changes nothing. -/
theorem total_counts_run_tests (verbose : Bool) (t0 : Tharness) (l : List TharnessEvent) :
    (run_events (tharness_init verbose t0) l).total =
      (before_results l).count THARNESS_RUN_TEST_EVENT % 4294967296 ∧
    (∀ N : Nat, THARNESS_RESULTS_EVENT ∉ l → l.count THARNESS_RUN_TEST_EVENT = N →
      N < 4294967296 → (run_events (tharness_init verbose t0) l).total = N) ∧
    (∀ t : Tharness, t.state ≠ THARNESS_RESULTS_STATE →
      (tharness_handle t THARNESS_RUN_TEST_EVENT).state = THARNESS_NORMAL_STATE ∧
      (tharness_handle t THARNESS_RUN_TEST_EVENT).total = uinc t.total) ∧
    (∀ t : Tharness, t.state = THARNESS_RESULTS_STATE →
      tharness_handle t THARNESS_RUN_TEST_EVENT = t) := by
  have h : (run_events (tharness_init verbose t0) l).total =
      (before_results l).count THARNESS_RUN_TEST_EVENT % 4294967296 := by
    rw [total_run l (tharness_init verbose t0) (by simp [tharness_init]),
      iterate_uinc_mod _ _ (by simp [tharness_init])]
    simp [tharness_init]
  refine ⟨h, ?_, ?_, ?_⟩
  · intro N hno hN hlt
    have hb : before_results l = l := by
      unfold before_results
      rw [List.takeWhile_eq_self_iff]
      intro e he
      have : e ≠ THARNESS_RESULTS_EVENT := fun hc => hno (hc ▸ he)
      simpa using this
    rw [h, hb, hN, Nat.mod_eq_of_lt hlt]
  · intro t hs
    rw [run_test_from t hs]
    exact ⟨rfl, rfl⟩
  · intro t hs
    exact run_events_results [THARNESS_RUN_TEST_EVENT] t hs

/-- C5, amended, instance: two tests, the second failing, then Results and a
late RunTest: `total` is 2. -/
theorem total_counts_run_tests_witness :
    (run_events (tharness_init true tharness_zero)
      [THARNESS_RUN_TEST_EVENT, THARNESS_PASSED_EVENT, THARNESS_RUN_TEST_EVENT,
        THARNESS_FAILED_EVENT, THARNESS_RESULTS_EVENT, THARNESS_RUN_TEST_EVENT]).total = 2 ∧
    (run_events (tharness_init true tharness_zero)
      [THARNESS_RUN_TEST_EVENT, THARNESS_FAILED_EVENT, THARNESS_RUN_TEST_EVENT]).total = 2 ∧
    (tharness_handle { tharness_zero with state := THARNESS_FAILED_STATE, total := 7 }
      THARNESS_RUN_TEST_EVENT).state = THARNESS_NORMAL_STATE ∧
    (tharness_handle { tharness_zero with state := THARNESS_FAILED_STATE, total := 7 }
      THARNESS_RUN_TEST_EVENT).total = 8 ∧
    tharness_handle { tharness_zero with state := THARNESS_RESULTS_STATE, total := 7 }
      THARNESS_RUN_TEST_EVENT =
      { tharness_zero with state := THARNESS_RESULTS_STATE, total := 7 } := by
  refine ⟨?_, ?_, ?_, ?_, ?_⟩
  · rw [(total_counts_run_tests true tharness_zero _).1]; decide
  · exact (total_counts_run_tests true tharness_zero
      [THARNESS_RUN_TEST_EVENT, THARNESS_FAILED_EVENT, THARNESS_RUN_TEST_EVENT]).2.1 2
      (by decide) (by decide) (by decide)
  · exact ((total_counts_run_tests true tharness_zero []).2.2.1
      { tharness_zero with state := THARNESS_FAILED_STATE, total := 7 } (by decide)).1
  · rw [((total_counts_run_tests true tharness_zero []).2.2.1
      { tharness_zero with state := THARNESS_FAILED_STATE, total := 7 } (by decide)).2]
    decide
  · exact (total_counts_run_tests true tharness_zero []).2.2.2
      { tharness_zero with state := THARNESS_RESULTS_STATE, total := 7 } rfl

/-- C5 as stated fails: the sequence Results, RunTest holds one RunTest event,
yet `total` stays 0 and the RunTest leaves the machine in state Results; and
2^32 RunTest events in a row wrap `total` back to 0. -/
theorem total_counts_run_tests_counterexample :
    [THARNESS_RESULTS_EVENT, THARNESS_RUN_TEST_EVENT].count THARNESS_RUN_TEST_EVENT = 1 ∧
    (run_events (tharness_init false tharness_zero)
      [THARNESS_RESULTS_EVENT, THARNESS_RUN_TEST_EVENT]).total = 0 ∧
    (run_events (tharness_init false tharness_zero)
      [THARNESS_RESULTS_EVENT, THARNESS_RUN_TEST_EVENT]).state = THARNESS_RESULTS_STATE ∧
    (List.replicate 4294967296 THARNESS_RUN_TEST_EVENT).count THARNESS_RUN_TEST_EVENT =
      4294967296 ∧
    (run_events (tharness_init false tharness_zero)
      (List.replicate 4294967296 THARNESS_RUN_TEST_EVENT)).total = 0 := by
  refine ⟨by decide, by decide, by decide, List.count_replicate_self _ _, ?_⟩
  rw [(run_replicate_run_test 4294967296 (tharness_init false tharness_zero) (by decide)).1,
    iterate_uinc_mod 4294967296 _ (by decide)]
  decide

/-! ### The print functions -/

theorem tabs_zero : tabs 0 = "" := by decide

theorem last_char_newline : last_char "\n" = some '\n' := by decide

/-- When output is not permitted, `tharness_vprint` does nothing. -/
theorem vprint_suppressed (indent : Int) (msg : Option Message) (s : Sys)
    (h : tharness_can_output s.tharness = false) : tharness_vprint indent msg s = some s := by
  simp [tharness_vprint, h]

/-- When output is permitted, `tharness_vprint` of a message with a non-empty
format writes the indentation (at the start of a line) and the text. -/
theorem vprint_permitted (indent : Int) (m : Message) (c : Char) (s : Sys)
    (h : tharness_can_output s.tharness = true) (hc : last_char m.fmt = some c) :
    tharness_vprint indent (some m) s =
      some { tharness := { s.tharness with at_new_line := (c == '\n') },
             stdout := s.stdout ++ (if s.tharness.at_new_line = true then tabs indent else "") ++
               m.text } := by
  simp only [tharness_vprint, h, if_true, hc]
  by_cases hn : s.tharness.at_new_line = true <;> simp [hn]

/-- The print functions never touch the part of the global the state machine owns. -/
theorem vprint_machine (indent : Int) (msg : Option Message) (s s' : Sys)
    (h : tharness_vprint indent msg s = some s') :
    machine s'.tharness = machine s.tharness := by
  unfold tharness_vprint at h
  by_cases hc : tharness_can_output s.tharness = true
  · simp only [hc, if_true] at h
    cases msg with
    | none =>
      simp only [Option.some.injEq] at h
      subst h
      by_cases hn : s.tharness.at_new_line = true <;> simp [hn]
    | some m =>
      simp only at h
      cases hl : last_char m.fmt with
      | none => simp [hl] at h
      | some c =>
        simp only [hl, Option.some.injEq] at h
        subst h
        by_cases hn : s.tharness.at_new_line = true <;> simp [hn, machine]
  · simp only [hc] at h
    simp at h
    subst h
    rfl


theorem can_output_machine (a b : Tharness) (h : machine a = machine b) :
    tharness_can_output a = tharness_can_output b := by
  obtain ⟨_, _, _, _, _, _⟩ := a
  obtain ⟨_, _, _, _, _, _⟩ := b
  simp only [machine, Tharness.mk.injEq] at h
  obtain ⟨_, _, _, h4, _, h6⟩ := h
  simp [tharness_can_output, h4, h6]

theorem machine_handle (a b : Tharness) (e : TharnessEvent) (h : machine a = machine b) :
    machine (tharness_handle a e) = machine (tharness_handle b e) := by
  obtain ⟨_, _, _, sa, _, _⟩ := a
  obtain ⟨_, _, _, sb, _, _⟩ := b
  simp only [machine, Tharness.mk.injEq] at h
  obtain ⟨h1, h2, h3, h4, _, h6⟩ := h
  subst h1 h2 h3 h4 h6
  cases sa <;> cases e <;> rfl

theorem machine_run_events (l : List TharnessEvent) :
    ∀ a b : Tharness, machine a = machine b →
      machine (run_events a l) = machine (run_events b l) := by
  induction l with
  | nil => intro a b h; exact h
  | cons e rest ih =>
    intro a b h
    rw [run_events_cons, run_events_cons]
    exact ih _ _ (machine_handle a b e h)

/-- With a null message or a non-empty format `tharness_vprint` is defined. -/
theorem vprint_defined (indent : Int) (msg : Option Message) (s : Sys)
    (h : ∀ m, msg = some m → (last_char m.fmt).isSome = true) :
    ∃ s', tharness_vprint indent msg s = some s' := by
  by_cases hc : tharness_can_output s.tharness = true
  · cases msg with
    | none => exact ⟨_, by simp only [tharness_vprint, hc, if_true]; rfl⟩
    | some m =>
      have hm := h m rfl
      cases hl : last_char m.fmt with
      | none => simp [hl] at hm
      | some c => exact ⟨_, vprint_permitted indent m c s hc hl⟩
  · exact ⟨s, vprint_suppressed indent msg s (by simpa using hc)⟩

theorem vprint_line_suppressed (indent : Int) (msg : Option Message) (s : Sys)
    (h : tharness_can_output s.tharness = false) :
    tharness_vprint_line indent msg s = some s := by
  cases msg with
  | none => rfl
  | some m =>
    simp [tharness_vprint_line, tharness_print, vprint_suppressed _ _ s h]

/-- When output is permitted, `tharness_vprint_line` of a message with a
non-empty format writes the indentation (at the start of a line), the text,
the indentation once more when the format ends in a newline, and a newline. -/
theorem vprint_line_permitted (indent : Int) (m : Message) (c : Char) (s : Sys)
    (h : tharness_can_output s.tharness = true) (hc : last_char m.fmt = some c) :
    tharness_vprint_line indent (some m) s =
      some { tharness := { s.tharness with at_new_line := true },
             stdout := s.stdout ++ (if s.tharness.at_new_line = true then tabs indent else "") ++
               m.text ++ (if (c == '\n') = true then tabs indent else "") ++ "\n" } := by
  have h2 : tharness_can_output { s.tharness with at_new_line := (c == '\n') } = true := by
    rw [← h]
    exact can_output_machine _ _ rfl
  simp only [tharness_vprint_line, tharness_print, vprint_permitted indent m c s h hc,
    Option.some_bind]
  rw [vprint_permitted indent ⟨"\n", "\n"⟩ '\n'
    { tharness := { s.tharness with at_new_line := (c == '\n') },
      stdout := s.stdout ++ (if s.tharness.at_new_line = true then tabs indent else "") ++
        m.text } h2 last_char_newline]
  simp

theorem vprint_line_machine (indent : Int) (msg : Option Message) (s s' : Sys)
    (h : tharness_vprint_line indent msg s = some s') :
    machine s'.tharness = machine s.tharness := by
  cases msg with
  | none =>
    simp only [tharness_vprint_line, Option.some.injEq] at h
    subst h
    rfl
  | some m =>
    simp only [tharness_vprint_line, tharness_print, Option.bind_eq_some] at h
    obtain ⟨s1, h1, h2⟩ := h
    rw [vprint_machine _ _ _ _ h2, vprint_machine _ _ _ _ h1]

theorem vprint_line_defined (indent : Int) (msg : Option Message) (s : Sys)
    (h : ∀ m, msg = some m → (last_char m.fmt).isSome = true) :
    ∃ s', tharness_vprint_line indent msg s = some s' := by
  cases msg with
  | none => exact ⟨s, rfl⟩
  | some m =>
    obtain ⟨s1, h1⟩ := vprint_defined indent (some m) s h
    obtain ⟨s2, h2⟩ := vprint_defined indent (some ⟨"\n", "\n"⟩) s1
      (by intro m hm; simp only [Option.some.injEq] at hm; subst hm; decide)
    exact ⟨s2, by simp [tharness_vprint_line, tharness_print, h1, h2]⟩


/-! ### Calls and the events they feed -/

theorem print_line_machine (indent : Int) (msg : Option Message) (s s' : Sys)
    (h : tharness_print_line indent msg s = some s') :
    machine s'.tharness = machine s.tharness :=
  vprint_line_machine indent msg s s' h

theorem print_line_defined (indent : Int) (fmt text : String) (s : Sys)
    (h : (last_char fmt).isSome = true) :
    ∃ s', tharness_print_line indent (some ⟨fmt, text⟩) s = some s' :=
  vprint_line_defined indent (some ⟨fmt, text⟩) s
    (by intro m1 hm; simp only [Option.some.injEq] at hm; subst hm; exact h)

theorem print_passed_machine (file func : String) (line : Int) (s s' : Sys)
    (h : tharness_print_passed file func line s = some s') :
    machine s'.tharness = machine s.tharness :=
  print_line_machine _ _ _ _ h

theorem print_failed_machine (file func : String) (line : Int) (s s' : Sys)
    (h : tharness_print_failed file func line s = some s') :
    machine s'.tharness = machine s.tharness :=
  print_line_machine _ _ _ _ h

theorem print_ignored_machine (file func : String) (line : Int) (s s' : Sys)
    (h : tharness_print_ignored file func line s = some s') :
    machine s'.tharness = machine s.tharness :=
  print_line_machine _ _ _ _ h

theorem print_passed_defined (file func : String) (line : Int) (s : Sys) :
    ∃ s', tharness_print_passed file func line s = some s' :=
  print_line_defined _ _ _ s (by decide)

theorem print_failed_defined (file func : String) (line : Int) (s : Sys) :
    ∃ s', tharness_print_failed file func line s = some s' :=
  print_line_defined _ _ _ s (by decide)

theorem print_ignored_defined (file func : String) (line : Int) (s : Sys) :
    ∃ s', tharness_print_ignored file func line s = some s' :=
  print_line_defined _ _ _ s (by decide)

/-- A call changes the part of the global the state machine owns exactly as
the events it feeds do. -/
theorem exec_machine (c : Call) (s s' : Sys) (h : c.exec s = some s') :
    machine s'.tharness = machine (run_events s.tharness (call_events c s.tharness)) := by
  cases c with
  | expect condition file func line str msg =>
    simp only [Call.exec, tharness_expect, feed] at h
    by_cases hn : (tharness_handle s.tharness THARNESS_RUN_EXPECT_EVENT).state =
        THARNESS_NORMAL_STATE
    · simp only [hn, if_true] at h
      cases condition with
      | true =>
        simp only [if_true] at h
        rw [print_passed_machine _ _ _ _ _ h]
        simp [call_events, hn, run_events]
      | false =>
        simp only [Bool.false_eq_true, if_false, Option.bind_eq_some] at h
        obtain ⟨s2, ⟨s1, h1, h2⟩, h3⟩ := h
        rw [vprint_line_machine _ _ _ _ h3, print_line_machine _ _ _ _ h2,
          print_failed_machine _ _ _ _ _ h1]
        simp [call_events, hn, run_events]
    · simp only [hn, if_false, Option.some.injEq] at h
      subst h
      simp [call_events, hn, run_events]
  | print indent msg =>
    rw [vprint_machine _ _ _ _ h]
    rfl
  | print_line indent msg =>
    rw [vprint_line_machine _ _ _ _ h]
    rfl
  | pass file func line msg =>
    simp only [Call.exec, tharness_pass, Option.bind_eq_some] at h
    obtain ⟨s1, h1, h2⟩ := h
    rw [vprint_line_machine _ _ _ _ h2, print_passed_machine _ _ _ _ _ h1]
    rfl
  | fail file func line msg =>
    simp only [Call.exec, tharness_fail, Option.bind_eq_some] at h
    obtain ⟨s1, h1, h2⟩ := h
    rw [vprint_line_machine _ _ _ _ h2, print_failed_machine _ _ _ _ _ h1]
    rfl
  | ignore file func line msg =>
    simp only [Call.exec, tharness_ignore, Option.bind_eq_some] at h
    obtain ⟨s1, h1, h2⟩ := h
    rw [vprint_line_machine _ _ _ _ h2, print_ignored_machine _ _ _ _ _ h1]
    rfl

/-- A call whose message is null or has a non-empty format is defined. -/
theorem exec_defined (c : Call) (s : Sys) (h : c.msg_ok = true) :
    ∃ s', c.exec s = some s' := by
  have hm : ∀ m, c.msg = some m → (last_char m.fmt).isSome = true := by
    intro m hm
    simpa [Call.msg_ok, hm] using h
  cases c with
  | expect condition file func line str msg =>
    simp only [Call.exec, tharness_expect]
    by_cases hn : (feed THARNESS_RUN_EXPECT_EVENT s).tharness.state = THARNESS_NORMAL_STATE
    · simp only [hn, if_true]
      cases condition with
      | true => exact print_passed_defined _ _ _ _
      | false =>
        obtain ⟨s1, h1⟩ := print_failed_defined file func line
          (feed THARNESS_FAILED_EVENT (feed THARNESS_RUN_EXPECT_EVENT s))
        obtain ⟨s2, h2⟩ := print_line_defined 1
          "Expected %s" ("Expected " ++ str) s1 (by decide)
        obtain ⟨s3, h3⟩ := vprint_line_defined 1 msg s2 hm
        exact ⟨s3, by simp [h1, h2, h3]⟩
    · exact ⟨feed THARNESS_RUN_EXPECT_EVENT s, by simp only [hn, if_false]⟩
  | print indent msg => exact vprint_defined indent msg s hm
  | print_line indent msg => exact vprint_line_defined indent msg s hm
  | pass file func line msg =>
    obtain ⟨s1, h1⟩ := print_passed_defined file func line (feed THARNESS_PASSED_EVENT s)
    obtain ⟨s2, h2⟩ := vprint_line_defined 1 msg s1 hm
    exact ⟨s2, by simp [Call.exec, tharness_pass, h1, h2]⟩
  | fail file func line msg =>
    obtain ⟨s1, h1⟩ := print_failed_defined file func line (feed THARNESS_FAILED_EVENT s)
    obtain ⟨s2, h2⟩ := vprint_line_defined 1 msg s1 hm
    exact ⟨s2, by simp [Call.exec, tharness_fail, h1, h2]⟩
  | ignore file func line msg =>
    obtain ⟨s1, h1⟩ := print_ignored_defined file func line (feed THARNESS_IGNORED_EVENT s)
    obtain ⟨s2, h2⟩ := vprint_line_defined 1 msg s1 hm
    exact ⟨s2, by simp [Call.exec, tharness_ignore, h1, h2]⟩

theorem machine_state (a b : Tharness) (h : machine a = machine b) : a.state = b.state := by
  have := congrArg Tharness.state h
  simpa [machine] using this

theorem call_events_machine (c : Call) (a b : Tharness) (h : machine a = machine b) :
    call_events c a = call_events c b := by
  have hs := machine_state _ _ (machine_handle a b THARNESS_RUN_EXPECT_EVENT h)
  cases c <;> simp [call_events, hs]

theorem body_events_machine (cs : List Call) :
    ∀ a b : Tharness, machine a = machine b → body_events cs a = body_events cs b := by
  induction cs with
  | nil => intro a b _; rfl
  | cons c rest ih =>
    intro a b h
    simp only [body_events]
    rw [call_events_machine c a b h,
      ih _ _ (machine_run_events (call_events c b) a b h)]

theorem body_events_append (xs : List Call) :
    ∀ (ys : List Call) (t : Tharness),
      body_events (xs ++ ys) t =
        body_events xs t ++ body_events ys (run_events t (body_events xs t)) := by
  induction xs with
  | nil => intro ys t; rfl
  | cons c rest ih =>
    intro ys t
    rw [List.cons_append, body_events, body_events, ih, List.append_assoc, run_events_append]

/-- A test body changes the part of the global the state machine owns exactly
as the events it feeds do. -/
theorem exec_calls_machine (cs : List Call) :
    ∀ s s' : Sys, exec_calls cs s = some s' →
      machine s'.tharness = machine (run_events s.tharness (body_events cs s.tharness)) := by
  induction cs with
  | nil =>
    intro s s' h
    simp only [exec_calls, Option.some.injEq] at h
    subst h
    rfl
  | cons c rest ih =>
    intro s s' h
    simp only [exec_calls, Option.bind_eq_some] at h
    obtain ⟨s1, h1, h2⟩ := h
    have e1 := exec_machine c s s1 h1
    rw [ih s1 s' h2, body_events, run_events_append, body_events_machine rest _ _ e1]
    exact machine_run_events _ _ _ e1

/-- A test body all of whose messages are null or have a non-empty format is
defined. -/
theorem exec_calls_defined (cs : List Call) :
    ∀ s : Sys, (∀ c ∈ cs, c.msg_ok = true) → ∃ s', exec_calls cs s = some s' := by
  induction cs with
  | nil => intro s _; exact ⟨s, rfl⟩
  | cons c rest ih =>
    intro s h
    obtain ⟨s1, h1⟩ := exec_defined c s (h c (List.mem_cons_self _ _))
    obtain ⟨s2, h2⟩ := ih s1 (fun x hx => h x (List.mem_cons_of_mem _ hx))
    exact ⟨s2, by simp [exec_calls, h1, h2]⟩

/-! ### One failure per test -/

/-- The calls of a passing test, made in state Normal, leave the global as it is. -/
theorem passing_events (pre : List Call) :
    ∀ t : Tharness, t.state = THARNESS_NORMAL_STATE → (∀ c ∈ pre, c.is_passing = true) →
      run_events t (body_events pre t) = t := by
  induction pre with
  | nil => intro t _ _; rfl
  | cons c rest ih =>
    intro t hs h
    have hc := h c (List.mem_cons_self _ _)
    have hrest := ih t hs (fun x hx => h x (List.mem_cons_of_mem _ hx))
    obtain ⟨tot, f, i, st, nl, v⟩ := t
    simp only at hs
    subst hs
    have e : run_events ⟨tot, f, i, THARNESS_NORMAL_STATE, nl, v⟩
        (call_events c ⟨tot, f, i, THARNESS_NORMAL_STATE, nl, v⟩) =
        ⟨tot, f, i, THARNESS_NORMAL_STATE, nl, v⟩ := by
      cases c with
      | expect condition file func line str msg =>
        simp only [Call.is_passing] at hc
        subst hc
        rfl
      | print indent msg => rfl
      | print_line indent msg => rfl
      | pass file func line msg => rfl
      | fail file func line msg => simp [Call.is_passing] at hc
      | ignore file func line msg => simp [Call.is_passing] at hc
    rw [body_events, run_events_append, e, hrest]

/-- A failure signal in state Normal increments `failures` and moves to Failing. -/
theorem failure_event (c : Call) (t : Tharness) (hs : t.state = THARNESS_NORMAL_STATE)
    (hc : c.is_failure = true) :
    run_events t (call_events c t) =
      { t with failures := uinc t.failures, state := THARNESS_FAILING_STATE } := by
  obtain ⟨tot, f, i, st, nl, v⟩ := t
  simp only at hs
  subst hs
  cases c with
  | expect condition file func line str msg =>
    simp only [Call.is_failure, Bool.not_eq_true'] at hc
    subst hc
    rfl
  | fail file func line msg => rfl
  | print indent msg => simp [Call.is_failure] at hc
  | print_line indent msg => simp [Call.is_failure] at hc
  | pass file func line msg => simp [Call.is_failure] at hc
  | ignore file func line msg => simp [Call.is_failure] at hc

/-- After the failure, the first reporting call settles the state at Failed,
where it stays; nothing else changes. -/
theorem after_failure_events (post : List Call) :
    ∀ t : Tharness, is_failed_state t.state = true →
      run_events t (body_events post t) =
        { t with state := if post.any Call.is_report = true then THARNESS_FAILED_STATE
                          else t.state } := by
  induction post with
  | nil => intro t _; rfl
  | cons c rest ih =>
    intro t hs
    obtain ⟨tot, f, i, st, nl, v⟩ := t
    rw [body_events, run_events_append]
    cases st <;> simp [is_failed_state] at hs <;> cases c <;>
      (rw [ih _ (by simp [call_events, run_events, tharness_handle, is_failed_state])]
       simp [call_events, run_events, tharness_handle, Call.is_report])


theorem machine_fields (a b : Tharness) (h : machine a = machine b) :
    a.total = b.total ∧ a.failures = b.failures ∧ a.ignores = b.ignores ∧
    a.state = b.state ∧ a.verbose = b.verbose := by
  obtain ⟨_, _, _, _, _, _⟩ := a
  obtain ⟨_, _, _, _, _, _⟩ := b
  simp only [machine, Tharness.mk.injEq] at h
  obtain ⟨h1, h2, h3, h4, _, h6⟩ := h
  exact ⟨h1, h2, h3, h4, h6⟩

/-- C6: in a test started by `tharness_run` from a state other than Results
whose first signal that does not pass is a failing expect or a fail, whatever
calls follow: the test is defined when no message has an empty format, and
whenever it returns, `failures` has been incremented exactly once (the `++` of
`unsigned`), `ignores` is unchanged, and the state is Failed as soon as a
reporting call (expect, pass, fail, ignore) has followed the failure, Failing
before that. -/
theorem first_failure_counted_once (s : Sys) (pre post : List Call) (f : Call)
    (hs : s.tharness.state ≠ THARNESS_RESULTS_STATE)
    (hpre : ∀ c ∈ pre, c.is_passing = true) (hf : f.is_failure = true) :
    ((∀ c ∈ pre ++ f :: post, c.msg_ok = true) →
      ∃ s', tharness_run (exec_calls (pre ++ f :: post)) s = some s') ∧
    ∀ s', tharness_run (exec_calls (pre ++ f :: post)) s = some s' →
      s'.tharness.failures = uinc s.tharness.failures ∧
      s'.tharness.ignores = s.tharness.ignores ∧
      s'.tharness.state =
        (if post.any Call.is_report = true then THARNESS_FAILED_STATE
         else THARNESS_FAILING_STATE) := by
  refine ⟨fun hok => exec_calls_defined _ _ hok, ?_⟩
  intro s' h
  have hm := exec_calls_machine _ _ _ h
  simp only [feed] at hm
  rw [run_test_from _ hs, body_events_append, run_events_append,
    passing_events pre _ rfl hpre, body_events, run_events_append,
    failure_event f _ rfl hf,
    after_failure_events post _ (by simp [is_failed_state])] at hm
  obtain ⟨_, h2, h3, h4, _⟩ := machine_fields _ _ hm
  exact ⟨h2, h3, h4⟩

/-- C6, instance: `test_ints` (two passing expects, the failing expect `a == b`
with a message, then one more expect), run after `tharness_init(false)`,
raises `failures` from 0 to 1 and ends in Failed. -/
theorem first_failure_counted_once_witness :
    ∃ s', tharness_run (exec_calls (test_ints "main.c"))
        { tharness := tharness_init false tharness_zero, stdout := "" } = some s' ∧
      s'.tharness.failures = 1 ∧ s'.tharness.ignores = 0 ∧
      s'.tharness.state = THARNESS_FAILED_STATE := by
  have h := first_failure_counted_once
    { tharness := tharness_init false tharness_zero, stdout := "" }
    [ .expect true "main.c" "test_ints" 34 "a != b" none,
      .expect true "main.c" "test_ints" 35 "a < b" none ]
    [ .expect false "main.c" "test_ints" 39 "a > b" none ]
    (.expect false "main.c" "test_ints" 38 "a == b"
      (some ⟨"This is a test", "This is a test"⟩))
    (by decide) (by decide) (by decide)
  obtain ⟨s', hs'⟩ := h.1 (by decide)
  exact ⟨s', hs', h.2 s' hs'⟩

/-! ### The summary -/

theorem handle_results_state (t : Tharness) :
    tharness_handle t THARNESS_RESULTS_EVENT = { t with state := THARNESS_RESULTS_STATE } := by
  obtain ⟨tot, f, i, st, nl, v⟩ := t
  cases st <;> rfl

theorem print_line_permitted (indent : Int) (fmt text : String) (c : Char) (s : Sys)
    (h : tharness_can_output s.tharness = true) (hc : last_char fmt = some c) :
    tharness_print_line indent (some ⟨fmt, text⟩) s =
      some { tharness := { s.tharness with at_new_line := true },
             stdout := s.stdout ++ (if s.tharness.at_new_line = true then tabs indent else "") ++
               text ++ (if (c == '\n') = true then tabs indent else "") ++ "\n" } :=
  vprint_line_permitted indent ⟨fmt, text⟩ c s h hc

/-- What `tharness_results` does, in closed form. -/
theorem results_eq (s : Sys) :
    tharness_results s =
      some ({ tharness := { s.tharness with state := THARNESS_RESULTS_STATE,
                                            at_new_line := true },
              stdout := s.stdout ++ "\n" ++ printf_d (to_int s.tharness.total) ++ " Tests " ++
                printf_d (to_int s.tharness.failures) ++ " Failed " ++
                printf_d (to_int s.tharness.ignores) ++ " Ignored" ++ "\n" ++
                (if s.tharness.failures = 0 then "OK" else "FAIL") ++ "\n" },
            to_int s.tharness.failures) := by
  unfold tharness_results summary_message
  simp only [feed, handle_results_state]
  rw [print_line_permitted 0 _ _ 'd' _ (by simp [tharness_can_output]) (by decide)]
  simp only [Option.some_bind]
  by_cases hf : s.tharness.failures = 0
  · simp only [hf, if_true]
    rw [print_line_permitted 0 _ _ 'K' _ (by simp [tharness_can_output]) (by decide)]
    simp [tabs_zero, String.append_assoc]
  · simp only [hf, if_false]
    rw [print_line_permitted 0 _ _ 'L' _ (by simp [tharness_can_output]) (by decide)]
    simp [tabs_zero, String.append_assoc]


/-- Below 2^31 the conversion of an `unsigned` to `int` keeps the value. -/
theorem to_int_small (u : Nat) (h : u < 2147483648) : to_int u = (u : Int) := by
  unfold to_int
  rw [if_pos h]

/-- Below 2^31 a counter is written by `%d` as its decimal numeral. -/
theorem printf_d_small (u : Nat) (h : u < 2147483648) : printf_d (to_int u) = Nat.repr u := by
  rw [to_int_small u h]
  unfold printf_d
  rw [if_neg (by omega), Int.natAbs_ofNat]

/-- C7, amended: from every harness state (any state tag, any counters,
`verbose` set or not) `tharness_results` returns, leaves the machine in state
Results and the counters as they were, and writes, whatever the gating rule
says, a newline, the summary line ending in `Ignored`, then the line `OK`
when `failures == 0` and `FAIL` otherwise.  When the three counters are below
2^31 the summary line is `<total> Tests <failures> Failed <ignores> Ignored`
with the counters as decimal numerals, and the value returned is `failures`. -/
theorem results_prints_summary (s : Sys) :
    ∃ s' r, tharness_results s = some (s', r) ∧
      s'.tharness.state = THARNESS_RESULTS_STATE ∧
      s'.tharness.total = s.tharness.total ∧
      s'.tharness.failures = s.tharness.failures ∧
      s'.tharness.ignores = s.tharness.ignores ∧
      (∃ w, s'.stdout = s.stdout ++ "\n" ++ w ++ " Ignored" ++ "\n" ++
        (if s.tharness.failures = 0 then "OK" else "FAIL") ++ "\n") ∧
      (s.tharness.total < 2147483648 → s.tharness.failures < 2147483648 →
        s.tharness.ignores < 2147483648 →
        r = (s.tharness.failures : Int) ∧
        s'.stdout = s.stdout ++ "\n" ++ Nat.repr s.tharness.total ++ " Tests " ++
          Nat.repr s.tharness.failures ++ " Failed " ++
          Nat.repr s.tharness.ignores ++ " Ignored" ++ "\n" ++
          (if s.tharness.failures = 0 then "OK" else "FAIL") ++ "\n") := by
  refine ⟨_, _, results_eq s, rfl, rfl, rfl, rfl, ?_, ?_⟩
  · exact ⟨printf_d (to_int s.tharness.total) ++ " Tests " ++
      printf_d (to_int s.tharness.failures) ++ " Failed " ++
      printf_d (to_int s.tharness.ignores), by simp only [String.append_assoc]⟩
  · intro ht hf hi
    exact ⟨to_int_small _ hf, by
      simp only [printf_d_small _ ht, printf_d_small _ hf, printf_d_small _ hi]⟩

/-- C7, amended, Scenario A: `init(false)`, one test with two passing expects,
then `results` writes `1 Tests 0 Failed 0 Ignored` and `OK` and returns 0. -/
theorem results_prints_summary_witness :
    ∃ s1 s2, tharness_run
        (exec_calls [ .expect true "t.c" "T1" 3 "x == 1" none,
                      .expect true "t.c" "T1" 4 "y == 2" none ])
        { tharness := tharness_init false tharness_zero, stdout := "" } = some s1 ∧
      s1.tharness.total = 1 ∧ s1.tharness.failures = 0 ∧ s1.tharness.ignores = 0 ∧
      tharness_results s1 = some (s2, 0) ∧
      s2.stdout = "\n1 Tests 0 Failed 0 Ignored\nOK\n" := by
  obtain ⟨s2, r, h1, _, _, _, _, _, h2⟩ := results_prints_summary
    { tharness := { total := 1, failures := 0, ignores := 0,
                    state := THARNESS_NORMAL_STATE, at_new_line := false, verbose := false },
      stdout := "" }
  obtain ⟨h3, h4⟩ := h2 (by decide) (by decide) (by decide)
  subst h3
  exact ⟨_, s2, by decide, rfl, rfl, rfl, h1, by rw [h4]; decide⟩

/-- C7 as stated fails: with `failures = 2^31` and `total = 2^32 - 1` the
summary line reads `-1 Tests -2147483648 Failed 0 Ignored` and the value
returned is -2147483648, not the value of `failures`. -/
theorem results_prints_summary_counterexample :
    (tharness_results
        { tharness := { total := 4294967295, failures := 2147483648, ignores := 0,
                        state := THARNESS_NORMAL_STATE, at_new_line := true,
                        verbose := false },
          stdout := "" }).map (fun r => (r.1.stdout, r.2)) =
      some ("\n-1 Tests -2147483648 Failed 0 Ignored\nFAIL\n", -2147483648) ∧
    ((-2147483648 : Int) ≠ ((2147483648 : Nat) : Int)) := by
  refine ⟨by decide, by decide⟩

/-- C8: `tharness_results` called twice in a row: both calls return, the second
leaves the whole global (`total`, `failures`, `ignores`, `state`) as the first
left it, the counters are as before the first call, and both calls return the
same value. -/
theorem results_twice (s : Sys) :
    ∃ s1 s2 r, tharness_results s = some (s1, r) ∧ tharness_results s1 = some (s2, r) ∧
      s2.tharness = s1.tharness ∧
      s1.tharness.state = THARNESS_RESULTS_STATE ∧
      s1.tharness.total = s.tharness.total ∧
      s1.tharness.failures = s.tharness.failures ∧
      s1.tharness.ignores = s.tharness.ignores :=
  ⟨_, _, _, results_eq s, results_eq _, rfl, rfl, rfl, rfl, rfl⟩

/-! ### Suppression -/

theorem feed_self (e : TharnessEvent) (s : Sys) (h : tharness_handle s.tharness e = s.tharness) :
    feed e s = s := by
  obtain ⟨t, out⟩ := s
  simp only [feed] at h ⊢
  rw [h]

theorem print_line_suppressed (indent : Int) (msg : Option Message) (s : Sys)
    (h : tharness_can_output s.tharness = false) :
    tharness_print_line indent msg s = some s :=
  vprint_line_suppressed indent msg s h

/-- With `verbose = false` in state Normal, a passing expect, a pass, a print
and a print_line leave the global and the output as they are. -/
theorem passing_call_silent (c : Call) (s : Sys) (hv : s.tharness.verbose = false)
    (hs : s.tharness.state = THARNESS_NORMAL_STATE) (hc : c.is_passing = true) :
    c.exec s = some s := by
  have hout : tharness_can_output s.tharness = false := by
    simp [tharness_can_output, hv, hs]
  have h1 : feed THARNESS_RUN_EXPECT_EVENT s = s :=
    feed_self _ s (by
      obtain ⟨⟨tot, f, i, st, nl, v⟩, out⟩ := s
      simp only at hs
      subst hs
      rfl)
  have h2 : feed THARNESS_PASSED_EVENT s = s :=
    feed_self _ s (by
      obtain ⟨⟨tot, f, i, st, nl, v⟩, out⟩ := s
      simp only at hs
      subst hs
      rfl)
  cases c with
  | expect condition file func line str msg =>
    simp only [Call.is_passing] at hc
    subst hc
    simp only [Call.exec, tharness_expect, h1, hs, h2, if_true, tharness_print_passed]
    exact print_line_suppressed _ _ s hout
  | print indent msg => exact vprint_suppressed indent msg s hout
  | print_line indent msg => exact print_line_suppressed indent msg s hout
  | pass file func line msg =>
    simp only [Call.exec, tharness_pass, h2, tharness_print_passed,
      print_line_suppressed _ _ s hout, Option.some_bind]
    exact vprint_line_suppressed _ _ s hout
  | fail file func line msg => simp [Call.is_passing] at hc
  | ignore file func line msg => simp [Call.is_passing] at hc

theorem passing_calls_silent (body : List Call) (s : Sys) (hv : s.tharness.verbose = false)
    (hs : s.tharness.state = THARNESS_NORMAL_STATE) (hb : ∀ c ∈ body, c.is_passing = true) :
    exec_calls body s = some s := by
  induction body with
  | nil => rfl
  | cons c rest ih =>
    rw [exec_calls, passing_call_silent c s hv hs (hb c (List.mem_cons_self _ _)),
      Option.some_bind]
    exact ih (fun x hx => hb x (List.mem_cons_of_mem _ hx))

/-- C9: with `verbose = false`, a test started by `tharness_run` from a state
other than Results whose body holds only passing expects, pass calls and
print / print_line calls returns, having written nothing: the output and
`at_new_line` are unchanged, the only change being the RunTest transition.
Hence `tharness_results` after such a test writes, after what the earlier
tests wrote, the summary alone. -/
theorem passing_test_silent (s : Sys) (body : List Call)
    (hv : s.tharness.verbose = false)
    (hs : s.tharness.state ≠ THARNESS_RESULTS_STATE)
    (hb : ∀ c ∈ body, c.is_passing = true) :
    (∃ s', tharness_run (exec_calls body) s = some s' ∧
      s'.stdout = s.stdout ∧
      s'.tharness.at_new_line = s.tharness.at_new_line ∧
      s' = feed THARNESS_RUN_TEST_EVENT s) ∧
    (∃ s2, (tharness_run (exec_calls body) s).bind tharness_results =
        some (s2, to_int s.tharness.failures) ∧
      s2.stdout = s.stdout ++ "\n" ++ printf_d (to_int (uinc s.tharness.total)) ++ " Tests " ++
        printf_d (to_int s.tharness.failures) ++ " Failed " ++
        printf_d (to_int s.tharness.ignores) ++ " Ignored" ++ "\n" ++
        (if s.tharness.failures = 0 then "OK" else "FAIL") ++ "\n") := by
  have hrun : tharness_run (exec_calls body) s = some (feed THARNESS_RUN_TEST_EVENT s) := by
    unfold tharness_run
    apply passing_calls_silent body _ _ _ hb
    · simp only [feed]
      rw [run_test_from _ hs]
      exact hv
    · simp only [feed]
      rw [run_test_from _ hs]
  refine ⟨⟨_, hrun, rfl, ?_, rfl⟩, ?_⟩
  · simp only [feed]
    rw [run_test_from _ hs]
  · rw [hrun, Option.some_bind, results_eq]
    simp only [feed, run_test_from _ hs]
    exact ⟨_, rfl, rfl⟩

/-- C9, Scenario D: after `init(false)` a failing test, then a passing test,
then `results`: the output is the diagnostic of the first test followed by the
summary. -/
theorem passing_test_silent_witness :
    ∃ s1 s2,
      tharness_run (exec_calls [ .expect false "t.c" "T1" 3 "a == b" none ])
        { tharness := tharness_init false tharness_zero, stdout := "" } = some s1 ∧
      s1.stdout = "t.c:3: T1: FAIL\n\tExpected a == b\n" ∧
      (tharness_run
          (exec_calls [ .expect true "t.c" "T2" 9 "1" none,
                        .print_line 1 (some ⟨"done", "done"⟩),
                        .pass "t.c" "T2" 11 (some ⟨"fine", "fine"⟩) ]) s1).bind
        tharness_results = some (s2, 1) ∧
      s2.stdout = "t.c:3: T1: FAIL\n\tExpected a == b\n\n2 Tests 1 Failed 0 Ignored\nFAIL\n" := by
  obtain ⟨s2, h1, h2⟩ := (passing_test_silent
    { tharness := { total := 1, failures := 1, ignores := 0,
                    state := THARNESS_FAILING_STATE, at_new_line := true, verbose := false },
      stdout := "t.c:3: T1: FAIL\n\tExpected a == b\n" }
    [ .expect true "t.c" "T2" 9 "1" none,
      .print_line 1 (some ⟨"done", "done"⟩),
      .pass "t.c" "T2" 11 (some ⟨"fine", "fine"⟩) ]
    rfl (by decide) (by decide)).2
  exact ⟨_, s2, by decide, rfl, h1, by rw [h2]; decide⟩

/-! ### The diagnostic block of a failing expect -/

theorem tabs_one : tabs 1 = "\t" := by decide

/-- With `verbose = false`, the first reporting call after a failure writes
nothing and settles the state at Failed. -/
theorem report_after_failure_silent (c : Call) (s : Sys) (hv : s.tharness.verbose = false)
    (hs : s.tharness.state = THARNESS_FAILING_STATE) (hc : c.is_report = true) :
    c.exec s = some { s with tharness := { s.tharness with state := THARNESS_FAILED_STATE } } := by
  obtain ⟨⟨tot, f, i, st, nl, v⟩, out⟩ := s
  simp only at hv hs
  subst hv hs
  have hout : ∀ o : String, tharness_can_output
      (Sys.mk ⟨tot, f, i, THARNESS_FAILED_STATE, nl, false⟩ o).tharness = false :=
    fun _ => rfl
  cases c with
  | expect condition file func line str msg => rfl
  | print indent msg => simp [Call.is_report] at hc
  | print_line indent msg => simp [Call.is_report] at hc
  | pass file func line msg =>
    simp only [Call.exec, tharness_pass, tharness_print_passed, feed, tharness_handle,
      print_line_suppressed _ _ _ (hout out), Option.some_bind]
    exact vprint_line_suppressed _ _ _ (hout out)
  | fail file func line msg =>
    simp only [Call.exec, tharness_fail, tharness_print_failed, feed, tharness_handle,
      print_line_suppressed _ _ _ (hout out), Option.some_bind]
    exact vprint_line_suppressed _ _ _ (hout out)
  | ignore file func line msg =>
    simp only [Call.exec, tharness_ignore, tharness_print_ignored, feed, tharness_handle,
      print_line_suppressed _ _ _ (hout out), Option.some_bind]
    exact vprint_line_suppressed _ _ _ (hout out)

/-- With `verbose = false` in state Failed, every call leaves the global and the
output as they are. -/
theorem failed_call_silent (c : Call) (s : Sys) (hv : s.tharness.verbose = false)
    (hs : s.tharness.state = THARNESS_FAILED_STATE) : c.exec s = some s := by
  obtain ⟨⟨tot, f, i, st, nl, v⟩, out⟩ := s
  simp only at hv hs
  subst hv hs
  have hout : tharness_can_output
      (Sys.mk ⟨tot, f, i, THARNESS_FAILED_STATE, nl, false⟩ out).tharness = false := rfl
  cases c with
  | expect condition file func line str msg => rfl
  | print indent msg => exact vprint_suppressed indent msg _ hout
  | print_line indent msg => exact print_line_suppressed indent msg _ hout
  | pass file func line msg =>
    simp only [Call.exec, tharness_pass, tharness_print_passed, feed, tharness_handle,
      print_line_suppressed _ _ _ hout, Option.some_bind]
    exact vprint_line_suppressed _ _ _ hout
  | fail file func line msg =>
    simp only [Call.exec, tharness_fail, tharness_print_failed, feed, tharness_handle,
      print_line_suppressed _ _ _ hout, Option.some_bind]
    exact vprint_line_suppressed _ _ _ hout
  | ignore file func line msg =>
    simp only [Call.exec, tharness_ignore, tharness_print_ignored, feed, tharness_handle,
      print_line_suppressed _ _ _ hout, Option.some_bind]
    exact vprint_line_suppressed _ _ _ hout

theorem failed_calls_silent (cs : List Call) (s : Sys) (hv : s.tharness.verbose = false)
    (hs : s.tharness.state = THARNESS_FAILED_STATE) : exec_calls cs s = some s := by
  induction cs with
  | nil => rfl
  | cons c rest ih => rw [exec_calls, failed_call_silent c s hv hs, Option.some_bind, ih]

/-- What `tharness_vprint_line(1, msg, args)` writes at the start of a line when
output is permitted and the format is not empty. -/
theorem vprint_line_message (msg : Option Message) (s : Sys)
    (h : tharness_can_output s.tharness = true) (hn : s.tharness.at_new_line = true)
    (hm : ∀ m, msg = some m → (last_char m.fmt).isSome = true) :
    tharness_vprint_line 1 msg s =
      some { s with stdout := s.stdout ++ message_lines msg } := by
  cases msg with
  | none =>
    simp only [tharness_vprint_line, message_lines, String.append_empty]
  | some m =>
    have h1 := hm m rfl
    cases hl : last_char m.fmt with
    | none => simp [hl] at h1
    | some c =>
      rw [vprint_line_permitted 1 m c s h hl]
      obtain ⟨t, out⟩ := s
      obtain ⟨tot, f, i, st, nl, v⟩ := t
      simp only at hn
      subst hn
      by_cases hc : c = '\n'
      · subst hc
        simp [message_lines, ends_in_newline, hl, tabs_one, String.append_assoc]
      · simp [message_lines, ends_in_newline, hl, tabs_one, String.append_assoc, hc]


/-- What a failing expect does in state Normal with `verbose = false`, in
closed form. -/
theorem failing_expect_eq (s : Sys) (file func : String) (line : Int) (str : String)
    (msg : Option Message) (hv : s.tharness.verbose = false)
    (hs : s.tharness.state = THARNESS_NORMAL_STATE)
    (hm : ∀ m, msg = some m → (last_char m.fmt).isSome = true) :
    tharness_expect false file func line str msg s =
      some { tharness := { s.tharness with failures := uinc s.tharness.failures,
                                            state := THARNESS_FAILING_STATE,
                                            at_new_line := true },
             stdout := s.stdout ++ file ++ ":" ++ printf_d line ++ ": " ++ func ++ ": FAIL" ++
               "\n" ++ "\t" ++ "Expected " ++ str ++ "\n" ++ message_lines msg } := by
  obtain ⟨⟨tot, f, i, st, nl, v⟩, out⟩ := s
  simp only at hv hs
  subst hv hs
  simp only [tharness_expect, feed, tharness_handle, if_true, Bool.false_eq_true, if_false,
    tharness_print_failed]
  rw [print_line_permitted 0 _ _ 'L' _ (by rfl) (by decide)]
  simp only [Option.some_bind]
  rw [print_line_permitted 1 _ _ 's' _ (by rfl) (by decide)]
  simp only [Option.some_bind]
  rw [vprint_line_message msg _ (by rfl) (by rfl) hm]
  have e1 : (('L' : Char) == '\n') = false := by decide
  have e2 : (('s' : Char) == '\n') = false := by decide
  simp only [e1, e2, tabs_zero, tabs_one, String.append_assoc, String.append_empty,
    String.empty_append, ite_self, if_true, Bool.false_eq_true, if_false]

/-- With `verbose = false`, calls that follow a failure and begin with a
reporting call write nothing and settle the state at Failed. -/
theorem after_failure_silent (s : Sys) (r : Call) (rest : List Call)
    (hv : s.tharness.verbose = false) (hs : s.tharness.state = THARNESS_FAILING_STATE)
    (hr : r.is_report = true) :
    exec_calls (r :: rest) s =
      some { s with tharness := { s.tharness with state := THARNESS_FAILED_STATE } } := by
  rw [exec_calls, report_after_failure_silent r s hv hs hr, Option.some_bind]
  exact failed_calls_silent rest _ hv rfl

/-- C10 as stated fails: for the message `"oops\n"` the failing expect writes a
fourth line that holds a lone tab, so the output is not the block of three
lines; and for the empty message `""` the call reads `msg[strlen(msg)-1]`
outside the string. -/
theorem failing_expect_block_counterexample :
    (tharness_expect false "t.c" "T" 7 "a == b" (some ⟨"oops\n", "oops\n"⟩)
        { tharness := tharness_init false tharness_zero, stdout := "" }).map Sys.stdout =
      some "t.c:7: T: FAIL\n\tExpected a == b\n\toops\n\t\n" ∧
    "t.c:7: T: FAIL\n\tExpected a == b\n\toops\n\t\n" ≠
      "" ++ diagnostic_block "t.c" "T" 7 "a == b" (some ⟨"oops\n", "oops\n"⟩) ∧
    "t.c:7: T: FAIL\n\tExpected a == b\n\toops\n\t\n" ≠
      "t.c:7: T: FAIL\n\tExpected a == b\n\toops\n" ∧
    tharness_expect false "t.c" "T" 7 "a == b" (some ⟨"", ""⟩)
        { tharness := tharness_init false tharness_zero, stdout := "" } = none := by
  refine ⟨by decide, by decide, by decide, by decide⟩

/-! ### Calls after the summary -/

/-- In state Results a single event changes nothing. -/
theorem handle_in_results (t : Tharness) (e : TharnessEvent)
    (h : t.state = THARNESS_RESULTS_STATE) : tharness_handle t e = t :=
  run_events_results [e] t h

/-- A marker line followed by the optional message, when output is permitted:
the marker text, a newline, and the message lines. -/
theorem marker_and_message (fmt text : String) (c : Char) (msg : Option Message) (s : Sys)
    (h : tharness_can_output s.tharness = true) (hc : last_char fmt = some c)
    (hne : (c == '\n') = false)
    (hm : ∀ m, msg = some m → (last_char m.fmt).isSome = true) :
    (tharness_print_line 0 (some ⟨fmt, text⟩) s).bind (tharness_vprint_line 1 msg) =
      some { tharness := { s.tharness with at_new_line := true },
             stdout := s.stdout ++ text ++ "\n" ++ message_lines msg } := by
  have h2 : tharness_can_output { s.tharness with at_new_line := true } = true := by
    rw [← h]
    exact can_output_machine _ _ rfl
  rw [print_line_permitted 0 fmt text c s h hc, Option.some_bind,
    vprint_line_message msg _ (by exact h2) (by rfl) hm]
  simp only [hne, tabs_zero, String.append_assoc, String.append_empty, String.empty_append,
    ite_self, Bool.false_eq_true, if_false]

/-- C11, amended: once `tharness_results` has left the machine in state Results,
for every verbose setting every event (RunTest included) is absorbed, and an
expect with any condition changes nothing and writes nothing; pass, fail and
ignore leave the state at Results and `total`, `failures`, `ignores`
unchanged, but they do write: their marker line, then the message lines. -/
theorem after_results_calls (s : Sys) (hs : s.tharness.state = THARNESS_RESULTS_STATE) :
    (∀ e : TharnessEvent, feed e s = s) ∧
    (∀ (condition : Bool) (file func : String) (line : Int) (str : String)
        (msg : Option Message),
      tharness_expect condition file func line str msg s = some s) ∧
    (∀ (file func : String) (line : Int) (msg : Option Message),
      (∀ m, msg = some m → (last_char m.fmt).isSome = true) →
      tharness_pass file func line msg s =
        some { tharness := { s.tharness with at_new_line := true },
               stdout := s.stdout ++ (file ++ ":" ++ printf_d line ++ ": " ++ func ++ ": OK") ++
                 "\n" ++ message_lines msg } ∧
      tharness_fail file func line msg s =
        some { tharness := { s.tharness with at_new_line := true },
               stdout := s.stdout ++ (file ++ ":" ++ printf_d line ++ ": " ++ func ++ ": FAIL") ++
                 "\n" ++ message_lines msg } ∧
      tharness_ignore file func line msg s =
        some { tharness := { s.tharness with at_new_line := true },
               stdout := s.stdout ++
                 (file ++ ":" ++ printf_d line ++ ": " ++ func ++ ": IGNORED") ++
                 "\n" ++ message_lines msg }) := by
  have hfeed : ∀ e : TharnessEvent, feed e s = s :=
    fun e => feed_self e s (handle_in_results _ e hs)
  have hout : tharness_can_output s.tharness = true := by
    simp [tharness_can_output, hs]
  refine ⟨hfeed, ?_, ?_⟩
  · intro condition file func line str msg
    simp [tharness_expect, hfeed, hs]
  · intro file func line msg hm
    refine ⟨?_, ?_, ?_⟩
    · rw [tharness_pass, hfeed, tharness_print_passed]
      exact marker_and_message _ _ 'K' msg s hout (by decide) (by decide) hm
    · rw [tharness_fail, hfeed, tharness_print_failed]
      exact marker_and_message _ _ 'L' msg s hout (by decide) (by decide) hm
    · rw [tharness_ignore, hfeed, tharness_print_ignored]
      exact marker_and_message _ _ 'D' msg s hout (by decide) (by decide) hm

/-- C11, amended, instance: after the summary of an empty run, RunTest and an
expect change nothing, and `TEST_PASS` writes its marker. -/
theorem after_results_calls_witness :
    feed THARNESS_RUN_TEST_EVENT
        { tharness := { tharness_zero with state := THARNESS_RESULTS_STATE, at_new_line := true },
          stdout := "\n0 Tests 0 Failed 0 Ignored\nOK\n" } =
      { tharness := { tharness_zero with state := THARNESS_RESULTS_STATE, at_new_line := true },
        stdout := "\n0 Tests 0 Failed 0 Ignored\nOK\n" } ∧
    tharness_expect false "t.c" "T" 4 "x" (some ⟨"late", "late"⟩)
        { tharness := { tharness_zero with state := THARNESS_RESULTS_STATE, at_new_line := true },
          stdout := "\n0 Tests 0 Failed 0 Ignored\nOK\n" } =
      some { tharness := { tharness_zero with state := THARNESS_RESULTS_STATE,
                                               at_new_line := true },
             stdout := "\n0 Tests 0 Failed 0 Ignored\nOK\n" } ∧
    (tharness_pass "t.c" "T" 5 none
        { tharness := { tharness_zero with state := THARNESS_RESULTS_STATE, at_new_line := true },
          stdout := "\n0 Tests 0 Failed 0 Ignored\nOK\n" }).map Sys.stdout =
      some "\n0 Tests 0 Failed 0 Ignored\nOK\nt.c:5: T: OK\n" := by
  have h := after_results_calls
    { tharness := { tharness_zero with state := THARNESS_RESULTS_STATE, at_new_line := true },
      stdout := "\n0 Tests 0 Failed 0 Ignored\nOK\n" } rfl
  refine ⟨h.1 _, h.2.1 _ _ _ _ _ _, ?_⟩
  rw [(h.2.2 "t.c" "T" 5 none (by intro m hm; cases hm)).1]
  decide

/-- C11 as stated fails: with `verbose = false`, `tharness_fail` called after
`tharness_results` writes its marker line behind the summary. -/
theorem after_results_calls_counterexample :
    (tharness_results { tharness := tharness_init false tharness_zero, stdout := "" }).map
        (fun r => (r.1.tharness.state, r.1.stdout)) =
      some (THARNESS_RESULTS_STATE, "\n0 Tests 0 Failed 0 Ignored\nOK\n") ∧
    ((tharness_results { tharness := tharness_init false tharness_zero, stdout := "" }).bind
        (fun r => tharness_fail "t.c" "T" 5 none r.1)).map Sys.stdout =
      some "\n0 Tests 0 Failed 0 Ignored\nOK\nt.c:5: T: FAIL\n" := by
  refine ⟨by decide, by decide⟩

/-! ### One ignore per test -/

/-- An ignore in state Normal increments `ignores` and moves to Ignoring. -/
theorem ignore_event (c : Call) (t : Tharness) (hs : t.state = THARNESS_NORMAL_STATE)
    (hc : c.is_ignore = true) :
    run_events t (call_events c t) =
      { t with ignores := uinc t.ignores, state := THARNESS_IGNORING_STATE } := by
  obtain ⟨tot, f, i, st, nl, v⟩ := t
  simp only at hs
  subst hs
  cases c with
  | ignore file func line msg => rfl
  | expect condition file func line str msg => simp [Call.is_ignore] at hc
  | fail file func line msg => simp [Call.is_ignore] at hc
  | print indent msg => simp [Call.is_ignore] at hc
  | print_line indent msg => simp [Call.is_ignore] at hc
  | pass file func line msg => simp [Call.is_ignore] at hc

/-- After the ignore, the first reporting call settles the state at Ignored,
where it stays; nothing else changes. -/
theorem after_ignore_events (post : List Call) :
    ∀ t : Tharness, is_ignored_state t.state = true →
      run_events t (body_events post t) =
        { t with state := if post.any Call.is_report = true then THARNESS_IGNORED_STATE
                          else t.state } := by
  induction post with
  | nil => intro t _; rfl
  | cons c rest ih =>
    intro t hs
    obtain ⟨tot, f, i, st, nl, v⟩ := t
    rw [body_events, run_events_append]
    cases st <;> simp [is_ignored_state] at hs <;> cases c <;>
      (rw [ih _ (by simp [call_events, run_events, tharness_handle, is_ignored_state])]
       simp [call_events, run_events, tharness_handle, Call.is_report])

/-- C12: in a test started by `tharness_run` from a state other than Results in
which ignore is called while the state is Normal (only passing expects, pass
calls and prints precede it), whatever fail calls, failing expects, pass calls
or further ignore calls follow: the test is defined when no message has an
empty format, and whenever it returns, `ignores` has been incremented exactly
once (the `++` of `unsigned`), `failures` is unchanged, and the state is
Ignored once a reporting call has followed the ignore, Ignoring before that. -/
theorem first_ignore_counted_once (s : Sys) (pre post : List Call) (g : Call)
    (hs : s.tharness.state ≠ THARNESS_RESULTS_STATE)
    (hpre : ∀ c ∈ pre, c.is_passing = true) (hg : g.is_ignore = true) :
    ((∀ c ∈ pre ++ g :: post, c.msg_ok = true) →
      ∃ s', tharness_run (exec_calls (pre ++ g :: post)) s = some s') ∧
    ∀ s', tharness_run (exec_calls (pre ++ g :: post)) s = some s' →
      s'.tharness.ignores = uinc s.tharness.ignores ∧
      s'.tharness.failures = s.tharness.failures ∧
      s'.tharness.state =
        (if post.any Call.is_report = true then THARNESS_IGNORED_STATE
         else THARNESS_IGNORING_STATE) := by
  refine ⟨fun hok => exec_calls_defined _ _ hok, ?_⟩
  intro s' h
  have hm := exec_calls_machine _ _ _ h
  simp only [feed] at hm
  rw [run_test_from _ hs, body_events_append, run_events_append,
    passing_events pre _ rfl hpre, body_events, run_events_append,
    ignore_event g _ rfl hg,
    after_ignore_events post _ (by simp [is_ignored_state])] at hm
  obtain ⟨_, h2, h3, h4, _⟩ := machine_fields _ _ hm
  exact ⟨h3, h2, h4⟩

/-- C12, instance: a test that passes an expect, calls ignore, then fails
twice and ignores again raises `ignores` from 0 to 1, leaves `failures` at 0
and ends in Ignored. -/
theorem first_ignore_counted_once_witness :
    ∃ s', tharness_run
        (exec_calls [ .expect true "t.c" "T" 3 "x" none,
                      .ignore "t.c" "T" 4 (some ⟨"not yet", "not yet"⟩),
                      .fail "t.c" "T" 5 none,
                      .expect false "t.c" "T" 6 "y" none,
                      .ignore "t.c" "T" 7 none ])
        { tharness := tharness_init false tharness_zero, stdout := "" } = some s' ∧
      s'.tharness.ignores = 1 ∧ s'.tharness.failures = 0 ∧
      s'.tharness.state = THARNESS_IGNORED_STATE := by
  have h := first_ignore_counted_once
    { tharness := tharness_init false tharness_zero, stdout := "" }
    [ .expect true "t.c" "T" 3 "x" none ]
    [ .fail "t.c" "T" 5 none, .expect false "t.c" "T" 6 "y" none, .ignore "t.c" "T" 7 none ]
    (.ignore "t.c" "T" 4 (some ⟨"not yet", "not yet"⟩))
    (by decide) (by decide) (by decide)
  obtain ⟨s', hs'⟩ := h.1 (by decide)
  exact ⟨s', hs', h.2 s' hs'⟩

/-! ### A passing test -/

/-- Passed and RunExpect events leave a harness in state Normal as it is. -/
theorem run_passed_events (l : List TharnessEvent) :
    ∀ t : Tharness, t.state = THARNESS_NORMAL_STATE →
      (∀ e ∈ l, e = THARNESS_PASSED_EVENT ∨ e = THARNESS_RUN_EXPECT_EVENT) →
      run_events t l = t := by
  induction l with
  | nil => intro t _ _; rfl
  | cons e rest ih =>
    intro t hs h
    have he : tharness_handle t e = t := by
      obtain ⟨tot, f, i, st, nl, v⟩ := t
      simp only at hs
      subst hs
      rcases h e (List.mem_cons_self _ _) with h1 | h1 <;> subst h1 <;> rfl
    rw [run_events_cons, he]
    exact ih t hs (fun x hx => h x (List.mem_cons_of_mem _ hx))

/-- C13: `tharness_init(verbose)` sets `total = failures = ignores = 0`, state
Normal and `verbose` as supplied; from there, one RunTest event followed by
any number `k >= 0` of Passed events and any number of RunExpect events, in
any order (a body that holds no other event), leaves the state Normal,
`total = 1`, and `failures` and `ignores` both 0. -/
theorem passed_only_test (verbose : Bool) (t0 : Tharness) (body : List TharnessEvent)
    (hbody : ∀ e ∈ body, e = THARNESS_PASSED_EVENT ∨ e = THARNESS_RUN_EXPECT_EVENT) :
    (tharness_init verbose t0).total = 0 ∧
    (tharness_init verbose t0).failures = 0 ∧
    (tharness_init verbose t0).ignores = 0 ∧
    (tharness_init verbose t0).state = THARNESS_NORMAL_STATE ∧
    (tharness_init verbose t0).verbose = verbose ∧
    (run_events (tharness_init verbose t0) (THARNESS_RUN_TEST_EVENT :: body)).state =
      THARNESS_NORMAL_STATE ∧
    (run_events (tharness_init verbose t0) (THARNESS_RUN_TEST_EVENT :: body)).total = 1 ∧
    (run_events (tharness_init verbose t0) (THARNESS_RUN_TEST_EVENT :: body)).failures = 0 ∧
    (run_events (tharness_init verbose t0) (THARNESS_RUN_TEST_EVENT :: body)).ignores = 0 ∧
    (run_events (tharness_init verbose t0) (THARNESS_RUN_TEST_EVENT :: body)).verbose =
      verbose := by
  rw [run_events_cons, run_passed_events body _ rfl hbody]
  exact ⟨rfl, rfl, rfl, rfl, rfl, rfl, rfl, rfl, rfl, rfl⟩

/-- C13, instance: `verbose = true`, three Passed events mixed with two
RunExpect events. -/
theorem passed_only_test_witness :
    (run_events (tharness_init true tharness_zero)
      [THARNESS_RUN_TEST_EVENT, THARNESS_RUN_EXPECT_EVENT, THARNESS_PASSED_EVENT,
        THARNESS_PASSED_EVENT, THARNESS_RUN_EXPECT_EVENT, THARNESS_PASSED_EVENT]).state =
      THARNESS_NORMAL_STATE ∧
    (run_events (tharness_init true tharness_zero)
      [THARNESS_RUN_TEST_EVENT, THARNESS_RUN_EXPECT_EVENT, THARNESS_PASSED_EVENT,
        THARNESS_PASSED_EVENT, THARNESS_RUN_EXPECT_EVENT, THARNESS_PASSED_EVENT]).total = 1 ∧
    (run_events (tharness_init true tharness_zero)
      [THARNESS_RUN_TEST_EVENT, THARNESS_RUN_EXPECT_EVENT, THARNESS_PASSED_EVENT,
        THARNESS_PASSED_EVENT, THARNESS_RUN_EXPECT_EVENT, THARNESS_PASSED_EVENT]).failures = 0 ∧
    (run_events (tharness_init true tharness_zero)
      [THARNESS_RUN_TEST_EVENT, THARNESS_RUN_EXPECT_EVENT, THARNESS_PASSED_EVENT,
        THARNESS_PASSED_EVENT, THARNESS_RUN_EXPECT_EVENT, THARNESS_PASSED_EVENT]).ignores = 0 := by
  obtain ⟨_, _, _, _, _, h1, h2, h3, h4, _⟩ := passed_only_test true tharness_zero
    [THARNESS_RUN_EXPECT_EVENT, THARNESS_PASSED_EVENT, THARNESS_PASSED_EVENT,
      THARNESS_RUN_EXPECT_EVENT, THARNESS_PASSED_EVENT] (by decide)
  exact ⟨h1, h2, h3, h4⟩

/-! ### What `tharness_pass` does to the verdict -/

/-- A Passed event changes no counter, whatever the state. -/
theorem handle_passed_counters (t : Tharness) :
    (tharness_handle t THARNESS_PASSED_EVENT).total = t.total ∧
    (tharness_handle t THARNESS_PASSED_EVENT).failures = t.failures ∧
    (tharness_handle t THARNESS_PASSED_EVENT).ignores = t.ignores := by
  obtain ⟨tot, f, i, st, nl, v⟩ := t
  cases st <;> exact ⟨rfl, rfl, rfl⟩

/-- C14, amended: `tharness_pass` changes no counter in any state, so it decides
nothing about the verdict of the test.  A test started by `tharness_run` from
a state other than Results leaves `failures` as it was when all its calls are
passing expects, pass calls and prints, or when its first signal that does
not pass is an ignore; when that first signal is a fail call or a failing
expect, `failures` is incremented once, also when pass is called before or
after it.  Every test whose messages are null or have a non-empty format is
defined. -/
theorem pass_decides_nothing (s : Sys) (hs : s.tharness.state ≠ THARNESS_RESULTS_STATE) :
    (∀ (file func : String) (line : Int) (msg : Option Message) (s1 s2 : Sys),
      tharness_pass file func line msg s1 = some s2 →
      s2.tharness.total = s1.tharness.total ∧
      s2.tharness.failures = s1.tharness.failures ∧
      s2.tharness.ignores = s1.tharness.ignores) ∧
    (∀ body : List Call, (∀ c ∈ body, c.msg_ok = true) →
      ∃ s', tharness_run (exec_calls body) s = some s') ∧
    (∀ (body : List Call) (s' : Sys), (∀ c ∈ body, c.is_passing = true) →
      tharness_run (exec_calls body) s = some s' →
      s'.tharness.failures = s.tharness.failures) ∧
    (∀ (pre post : List Call) (g : Call) (s' : Sys),
      (∀ c ∈ pre, c.is_passing = true) → g.is_ignore = true →
      tharness_run (exec_calls (pre ++ g :: post)) s = some s' →
      s'.tharness.failures = s.tharness.failures) ∧
    (∀ (pre post : List Call) (f : Call) (s' : Sys),
      (∀ c ∈ pre, c.is_passing = true) → f.is_failure = true →
      tharness_run (exec_calls (pre ++ f :: post)) s = some s' →
      s'.tharness.failures = uinc s.tharness.failures) := by
  refine ⟨?_, fun body hok => exec_calls_defined _ _ hok, ?_, ?_, ?_⟩
  · intro file func line msg s1 s2 h
    have hm := exec_machine (.pass file func line msg) s1 s2 h
    obtain ⟨h1, h2, h3, _, _⟩ := machine_fields _ _ hm
    obtain ⟨e1, e2, e3⟩ := handle_passed_counters s1.tharness
    exact ⟨h1.trans e1, h2.trans e2, h3.trans e3⟩
  · intro body s' hb h
    have hm := exec_calls_machine _ _ _ h
    simp only [feed] at hm
    rw [run_test_from _ hs, passing_events body _ rfl hb] at hm
    exact (machine_fields _ _ hm).2.1
  · intro pre post g s' hpre hg h
    have hm := exec_calls_machine _ _ _ h
    simp only [feed] at hm
    rw [run_test_from _ hs, body_events_append, run_events_append,
      passing_events pre _ rfl hpre, body_events, run_events_append,
      ignore_event g _ rfl hg,
      after_ignore_events post _ (by simp [is_ignored_state])] at hm
    exact (machine_fields _ _ hm).2.1
  · intro pre post f s' hpre hf h
    have hm := exec_calls_machine _ _ _ h
    simp only [feed] at hm
    rw [run_test_from _ hs, body_events_append, run_events_append,
      passing_events pre _ rfl hpre, body_events, run_events_append,
      failure_event f _ rfl hf,
      after_failure_events post _ (by simp [is_failed_state])] at hm
    exact (machine_fields _ _ hm).2.1

/-- C14, amended, instance: after `tharness_init(false)` a test of two pass
calls and a passing expect leaves `failures` at 0, and `test_arrays`, whose
first signal that does not pass is the `TEST_FAIL` of its second loop, raises
it to 1. -/
theorem pass_decides_nothing_witness :
    (∃ s', tharness_run
        (exec_calls [ .pass "t.c" "T" 3 (some ⟨"fine", "fine"⟩),
                      .expect true "t.c" "T" 4 "x" none,
                      .pass "t.c" "T" 5 none ])
        { tharness := tharness_init false tharness_zero, stdout := "" } = some s' ∧
      s'.tharness.failures = 0) ∧
    (∃ s', tharness_run (exec_calls (test_arrays "main.c"))
        { tharness := tharness_init false tharness_zero, stdout := "" } = some s' ∧
      s'.tharness.failures = 1) := by
  have h := pass_decides_nothing
    { tharness := tharness_init false tharness_zero, stdout := "" } (by decide)
  refine ⟨?_, ?_⟩
  · obtain ⟨s', hs'⟩ := h.2.1
      [ .pass "t.c" "T" 3 (some ⟨"fine", "fine"⟩), .expect true "t.c" "T" 4 "x" none,
        .pass "t.c" "T" 5 none ] (by decide)
    exact ⟨s', hs', h.2.2.1 _ s' (by decide) hs'⟩
  · obtain ⟨s', hs'⟩ := h.2.1 (test_arrays "main.c") (by decide)
    exact ⟨s', hs', h.2.2.2.2 [ .pass "main.c" "test_arrays" 57 none ]
      [ .pass "main.c" "test_arrays" 68 none ] (.fail "main.c" "test_arrays" 64 none) s'
      (by decide) (by decide) hs'⟩

/-- C14 as stated fails: `test_arrays` calls `TEST_PASS` twice, before and after
its `TEST_FAIL`, and is counted as a failure all the same; so are a test that
fails and then passes, and a test that passes and then fails. -/
theorem pass_decides_nothing_counterexample :
    (test_arrays "main.c").any Call.is_pass = true ∧
    (tharness_init false tharness_zero).failures = 0 ∧
    (tharness_run (exec_calls (test_arrays "main.c"))
        { tharness := tharness_init false tharness_zero, stdout := "" }).map
      (fun s => s.tharness.failures) = some 1 ∧
    (tharness_run (exec_calls [ .fail "t.c" "T" 3 none, .pass "t.c" "T" 4 none ])
        { tharness := tharness_init false tharness_zero, stdout := "" }).map
      (fun s => s.tharness.failures) = some 1 ∧
    (tharness_run (exec_calls [ .pass "t.c" "T" 3 none, .fail "t.c" "T" 4 none ])
        { tharness := tharness_init false tharness_zero, stdout := "" }).map
      (fun s => s.tharness.failures) = some 1 := by
  refine ⟨by decide, by decide, by decide, by decide, by decide⟩

/-! ### `at_new_line` after `tharness_init` -/

/-- C15, the code at the failing input: `tharness_init` never writes
`at_new_line`, so from the zero-initialised global it is false after
`tharness_init(true)` although nothing has been written, and the first
permitted write `tharness_print(1, "x")` is not preceded by a tab. -/
theorem init_keeps_at_new_line :
    (∀ (verbose : Bool) (t : Tharness),
      (tharness_init verbose t).at_new_line = t.at_new_line) ∧
    (tharness_init true tharness_zero).at_new_line = false ∧
    tharness_can_output (tharness_init true tharness_zero) = true ∧
    (tharness_print 1 (some ⟨"x", "x"⟩)
        { tharness := tharness_init true tharness_zero, stdout := "" }).map Sys.stdout =
      some "x" ∧
    (tharness_print 1 (some ⟨"x", "x"⟩)
        { tharness := { tharness_init true tharness_zero with at_new_line := true },
          stdout := "" }).map Sys.stdout = some "\tx" := by
  refine ⟨fun _ _ => rfl, by decide, by decide, by decide, by decide⟩

/-! ### An expect outside state Normal -/

/-- C17: for every verbose setting, condition and message, an expect made while
the state is not Normal returns, writes nothing and changes no counter: the
global is as after the RunExpect event alone (Failing becomes Failed, Ignoring
becomes Ignored, Failed, Ignored and Results stay), and RunExpect is the only
event fed. -/
theorem expect_outside_normal (condition : Bool) (file func : String) (line : Int)
    (str : String) (msg : Option Message) (s : Sys)
    (hs : s.tharness.state ≠ THARNESS_NORMAL_STATE) :
    ∃ s', tharness_expect condition file func line str msg s = some s' ∧
      s'.stdout = s.stdout ∧
      s'.tharness =
        { s.tharness with
          state := (match s.tharness.state with
                    | THARNESS_FAILING_STATE => THARNESS_FAILED_STATE
                    | THARNESS_IGNORING_STATE => THARNESS_IGNORED_STATE
                    | st => st) } ∧
      s'.tharness = tharness_handle s.tharness THARNESS_RUN_EXPECT_EVENT ∧
      call_events (.expect condition file func line str msg) s.tharness =
        [THARNESS_RUN_EXPECT_EVENT] := by
  obtain ⟨⟨tot, f, i, st, nl, v⟩, out⟩ := s
  cases st <;> simp at hs <;>
    exact ⟨_, rfl, rfl, rfl, rfl, rfl⟩

/-- C17, instance: with `verbose = true`, a failing expect with a message made
in state Failing writes nothing and only settles the state at Failed. -/
theorem expect_outside_normal_witness :
    tharness_expect false "t.c" "T" 9 "a == b" (some ⟨"late", "late"⟩)
        { tharness := { total := 1, failures := 1, ignores := 0,
                        state := THARNESS_FAILING_STATE, at_new_line := true, verbose := true },
          stdout := "out" } =
      some { tharness := { total := 1, failures := 1, ignores := 0,
                           state := THARNESS_FAILED_STATE, at_new_line := true,
                           verbose := true },
             stdout := "out" } := by
  obtain ⟨s', h1, h2, h3, _, _⟩ := expect_outside_normal false "t.c" "T" 9 "a == b"
    (some ⟨"late", "late"⟩)
    { tharness := { total := 1, failures := 1, ignores := 0,
                    state := THARNESS_FAILING_STATE, at_new_line := true, verbose := true },
      stdout := "out" } (by decide)
  rw [h1]
  obtain ⟨t', out'⟩ := s'
  simp only at h2 h3
  subst h2 h3
  rfl

/-! ### The write primitive -/

/-- A non-empty string has a last character. -/
theorem last_char_of_ne_empty (msg : String) (h : msg ≠ "") : ∃ c, last_char msg = some c := by
  obtain ⟨l⟩ := msg
  cases l with
  | nil => exact absurd rfl h
  | cons a rest => exact ⟨(a :: rest).getLast (by simp), List.getLast?_eq_getLast _ _⟩

theorem tabs_of_nonneg (indent : Int) (h : 0 ≤ indent) :
    tabs indent = String.mk (List.replicate (min indent.toNat 4) '\t') := by
  unfold tabs
  rw [if_neg (by omega)]

/-- C18: for every indent `>= 0` and every message with a non-empty format
string, `tharness_print` and `tharness_vprint` return; when output is not
permitted they write nothing and leave the whole global, `at_new_line`
included, unchanged; when output is permitted they write exactly
`min(indent, 4)` tabs followed by the text if `at_new_line` is true, and the
text alone if it is false. -/
theorem write_primitive (indent : Int) (m : Message) (s : Sys)
    (hi : 0 ≤ indent) (hm : m.fmt ≠ "") :
    tharness_print indent (some m) s = tharness_vprint indent (some m) s ∧
    (tharness_can_output s.tharness = false →
      tharness_vprint indent (some m) s = some s) ∧
    (tharness_can_output s.tharness = true →
      ∃ s', tharness_vprint indent (some m) s = some s' ∧
        s'.stdout = s.stdout ++
          (if s.tharness.at_new_line = true then
             String.mk (List.replicate (min indent.toNat 4) '\t')
           else "") ++ m.text ∧
        machine s'.tharness = machine s.tharness) := by
  refine ⟨rfl, fun h => vprint_suppressed indent (some m) s h, ?_⟩
  intro h
  obtain ⟨c, hc⟩ := last_char_of_ne_empty m.fmt hm
  refine ⟨_, vprint_permitted indent m c s h hc, ?_, rfl⟩
  simp only [tabs_of_nonneg indent hi]

/-- C18, instance: indent 7 at the start of a line gives four tabs, indent 2 in
the middle of a line none, and a suppressed write changes nothing. -/
theorem write_primitive_witness :
    (tharness_print 7 (some ⟨"a%d", "a1"⟩)
        { tharness := { tharness_zero with verbose := true, at_new_line := true },
          stdout := "" }).map Sys.stdout = some "\t\t\t\ta1" ∧
    (tharness_print 2 (some ⟨"b", "b"⟩)
        { tharness := { tharness_zero with verbose := true, at_new_line := false },
          stdout := "a" }).map Sys.stdout = some "ab" ∧
    tharness_print 2 (some ⟨"b", "b"⟩)
        { tharness := { tharness_zero with at_new_line := true }, stdout := "a" } =
      some { tharness := { tharness_zero with at_new_line := true }, stdout := "a" } := by
  refine ⟨?_, ?_, ?_⟩
  · obtain ⟨h0, _, h2⟩ := write_primitive 7 ⟨"a%d", "a1"⟩
      { tharness := { tharness_zero with verbose := true, at_new_line := true },
        stdout := "" } (by decide) (by decide)
    obtain ⟨s', h3, h4, _⟩ := h2 (by decide)
    rw [h0, h3, Option.map_some', h4]
    decide
  · obtain ⟨h0, _, h2⟩ := write_primitive 2 ⟨"b", "b"⟩
      { tharness := { tharness_zero with verbose := true, at_new_line := false },
        stdout := "a" } (by decide) (by decide)
    obtain ⟨s', h3, h4, _⟩ := h2 (by decide)
    rw [h0, h3, Option.map_some', h4]
    decide
  · obtain ⟨h0, h1, _⟩ := write_primitive 2 ⟨"b", "b"⟩
      { tharness := { tharness_zero with at_new_line := true }, stdout := "a" }
      (by decide) (by decide)
    rw [h0]
    exact h1 (by decide)

/-! ### The last character of the text -/

/-- C19, the code at the failing input: a permitted write of the empty string
evaluates `msg[strlen(msg)-1]` with `strlen(msg) = 0`, an index outside the
string, so the call has no defined result, in `tharness_vprint` as in
`tharness_print`; a suppressed write of the empty string never reaches the
lookup. -/
theorem empty_text_lookup :
    last_char "" = none ∧
    tharness_vprint 0 (some ⟨"", ""⟩)
        { tharness := tharness_init true tharness_zero, stdout := "" } = none ∧
    tharness_print 0 (some ⟨"", ""⟩)
        { tharness := tharness_init true tharness_zero, stdout := "" } = none ∧
    tharness_print 0 (some ⟨"", ""⟩)
        { tharness := tharness_init false tharness_zero, stdout := "" } =
      some { tharness := tharness_init false tharness_zero, stdout := "" } := by
  refine ⟨by decide, by decide, by decide, by decide⟩

/-! ### The line primitive -/

/-- C20, amended: `tharness_print_line` and `tharness_vprint_line` do nothing
for an absent (null) message, and nothing for any message when output is not
permitted: no character is written and the global is unchanged.  The guard is
a null test, so the empty string is not treated as absent.  For a message
with a non-empty format string and output permitted they return, having
written the indentation (at the start of a line), the text, the indentation
once more if the format string ends in a newline, and a newline, and they
leave `at_new_line` true. -/
theorem line_primitive (indent : Int) (s : Sys) :
    (∀ msg, tharness_print_line indent msg s = tharness_vprint_line indent msg s) ∧
    tharness_vprint_line indent none s = some s ∧
    (∀ msg, tharness_can_output s.tharness = false →
      tharness_vprint_line indent msg s = some s) ∧
    (∀ (m : Message) (c : Char), tharness_can_output s.tharness = true →
      last_char m.fmt = some c →
      tharness_vprint_line indent (some m) s =
        some { tharness := { s.tharness with at_new_line := true },
               stdout := s.stdout ++
                 (if s.tharness.at_new_line = true then tabs indent else "") ++ m.text ++
                 (if (c == '\n') = true then tabs indent else "") ++ "\n" }) :=
  ⟨fun _ => rfl, rfl, fun msg h => vprint_line_suppressed indent msg s h,
    fun m c h hc => vprint_line_permitted indent m c s h hc⟩

/-- C20, amended, instance: `PRINT_LINE("Output after fail")` in state Failing,
and the same call in state Failed. -/
theorem line_primitive_witness :
    tharness_print_line 1 (some ⟨"Output after fail", "Output after fail"⟩)
        { tharness := { tharness_zero with state := THARNESS_FAILING_STATE,
                                            at_new_line := true },
          stdout := "" } =
      some { tharness := { tharness_zero with state := THARNESS_FAILING_STATE,
                                               at_new_line := true },
             stdout := "\tOutput after fail\n" } ∧
    tharness_print_line 1 (some ⟨"Output after fail", "Output after fail"⟩)
        { tharness := { tharness_zero with state := THARNESS_FAILED_STATE,
                                            at_new_line := true },
          stdout := "" } =
      some { tharness := { tharness_zero with state := THARNESS_FAILED_STATE,
                                               at_new_line := true },
             stdout := "" } := by
  refine ⟨?_, ?_⟩
  · obtain ⟨h0, _, _, h3⟩ := line_primitive 1
      { tharness := { tharness_zero with state := THARNESS_FAILING_STATE,
                                          at_new_line := true },
        stdout := "" }
    rw [h0, h3 ⟨"Output after fail", "Output after fail"⟩ 'l' (by decide) (by decide)]
    decide
  · obtain ⟨h0, _, h2, _⟩ := line_primitive 1
      { tharness := { tharness_zero with state := THARNESS_FAILED_STATE,
                                          at_new_line := true },
        stdout := "" }
    rw [h0]
    exact h2 _ (by decide)

/-- C20 as stated fails: with output permitted, the line primitive called with
the empty string does not return at once as it does for a null message: it
passes the empty string to `tharness_vprint`, whose lookup
`msg[strlen(msg)-1]` lies outside the string, and goes on to write the
newline. -/
theorem line_primitive_counterexample :
    tharness_print_line 1 none
        { tharness := tharness_init true tharness_zero, stdout := "" } =
      some { tharness := tharness_init true tharness_zero, stdout := "" } ∧
    tharness_print_line 1 (some ⟨"", ""⟩)
        { tharness := tharness_init true tharness_zero, stdout := "" } =
      (tharness_vprint 1 (some ⟨"", ""⟩)
        { tharness := tharness_init true tharness_zero, stdout := "" }).bind
        (tharness_print 1 (some ⟨"\n", "\n"⟩)) ∧
    tharness_print_line 1 (some ⟨"", ""⟩)
        { tharness := tharness_init true tharness_zero, stdout := "" } ≠
      some { tharness := tharness_init true tharness_zero, stdout := "" } := by
  refine ⟨by decide, rfl, by decide⟩

/-! ### Prints between two reporting calls -/

/-- Print calls feed no event. -/
theorem print_events (ps : List Call) :
    ∀ t : Tharness, (∀ c ∈ ps, c.is_print = true) → body_events ps t = [] := by
  induction ps with
  | nil => intro t _; rfl
  | cons c rest ih =>
    intro t h
    have hc := h c (List.mem_cons_self _ _)
    have e : call_events c t = [] := by
      cases c <;> first | rfl | simp [Call.is_print] at hc
    rw [body_events, e, List.nil_append, run_events_nil]
    exact ih t (fun x hx => h x (List.mem_cons_of_mem _ hx))

/-- C16: `tharness_print` and `tharness_print_line` feed no event: whenever they
return, state and counters are unchanged.  So with `verbose = false`, in state
Failing or Ignoring, after any number of print calls (with null or non-empty
messages) the state is still the same and the next print or print_line of a
message with a non-empty format is written: the indentation at the start of
a line, then the text (and for print_line the newline).  The same calls made
in state Normal, Failed or Ignored write nothing and change nothing. -/
theorem prints_between_reports :
    (∀ (c : Call) (s s' : Sys), c.is_print = true → c.exec s = some s' →
      s'.tharness.state = s.tharness.state ∧ s'.tharness.total = s.tharness.total ∧
      s'.tharness.failures = s.tharness.failures ∧
      s'.tharness.ignores = s.tharness.ignores) ∧
    (∀ (ps : List Call) (s : Sys), s.tharness.verbose = false →
      (s.tharness.state = THARNESS_FAILING_STATE ∨
        s.tharness.state = THARNESS_IGNORING_STATE) →
      (∀ c ∈ ps, c.is_print = true ∧ c.msg_ok = true) →
      ∃ s1, exec_calls ps s = some s1 ∧ s1.tharness.state = s.tharness.state ∧
        ∀ (indent : Int) (m : Message) (ch : Char), last_char m.fmt = some ch →
          tharness_print indent (some m) s1 =
            some { tharness := { s1.tharness with at_new_line := (ch == '\n') },
                   stdout := s1.stdout ++
                     (if s1.tharness.at_new_line = true then tabs indent else "") ++ m.text } ∧
          tharness_print_line indent (some m) s1 =
            some { tharness := { s1.tharness with at_new_line := true },
                   stdout := s1.stdout ++
                     (if s1.tharness.at_new_line = true then tabs indent else "") ++ m.text ++
                     (if (ch == '\n') = true then tabs indent else "") ++ "\n" }) ∧
    (∀ (c : Call) (s : Sys), c.is_print = true → s.tharness.verbose = false →
      (s.tharness.state = THARNESS_NORMAL_STATE ∨ s.tharness.state = THARNESS_FAILED_STATE ∨
        s.tharness.state = THARNESS_IGNORED_STATE) →
      c.exec s = some s) := by
  refine ⟨?_, ?_, ?_⟩
  · intro c s s' hc h
    have hm := exec_calls_machine [c] s s' (by simp [exec_calls, h])
    rw [print_events [c] _ (by simpa using hc), run_events_nil] at hm
    obtain ⟨h1, h2, h3, h4, _⟩ := machine_fields _ _ hm
    exact ⟨h4, h1, h2, h3⟩
  · intro ps s hv hs hps
    obtain ⟨s1, h1⟩ := exec_calls_defined ps s (fun c hc => (hps c hc).2)
    have hm := exec_calls_machine ps s s1 h1
    rw [print_events ps _ (fun c hc => (hps c hc).1), run_events_nil] at hm
    have hout : tharness_can_output s1.tharness = true := by
      rw [can_output_machine _ _ hm]
      rcases hs with hs | hs <;> simp [tharness_can_output, hs]
    exact ⟨s1, h1, machine_state _ _ hm, fun indent m ch hch =>
      ⟨vprint_permitted indent m ch s1 hout hch,
       vprint_line_permitted indent m ch s1 hout hch⟩⟩
  · intro c s hc hv hs
    have hout : tharness_can_output s.tharness = false := by
      rcases hs with hs | hs | hs <;> simp [tharness_can_output, hs, hv]
    cases c with
    | print indent msg => exact vprint_suppressed indent msg s hout
    | print_line indent msg => exact vprint_line_suppressed indent msg s hout
    | expect condition file func line str msg => simp [Call.is_print] at hc
    | pass file func line msg => simp [Call.is_print] at hc
    | fail file func line msg => simp [Call.is_print] at hc
    | ignore file func line msg => simp [Call.is_print] at hc

/-- C16, instances: with `verbose = false`, the `PRINT_LINE` after `TEST_FAIL` in
`test_failed` and after `TEST_IGNORE` in `test_ignored` is written; in
`test_assert` the two `PRINT_LINE`s after the passing `EXPECT(1)` are
suppressed and the two after the failing `EXPECT(0)` are written; and after
the two prints of `test_assert` a third one is still written. -/
theorem prints_between_reports_witness :
    (tharness_run (exec_calls (test_failed "main.c"))
        { tharness := tharness_init false tharness_zero, stdout := "" }).map Sys.stdout =
      some "main.c:18: test_failed: FAIL\n\tOutput after fail\n" ∧
    (tharness_run (exec_calls (test_ignored "main.c"))
        { tharness := tharness_init false tharness_zero, stdout := "" }).map Sys.stdout =
      some "main.c:24: test_ignored: IGNORED\n\tOutput after ignore\n" ∧
    (tharness_run (exec_calls (test_assert "main.c"))
        { tharness := tharness_init false tharness_zero, stdout := "" }).map Sys.stdout =
      some "main.c:11: test_assert: FAIL\n\tExpected 0\n\tTest message\n\tAnother test message\n" ∧
    ((tharness_run (exec_calls (test_assert "main.c"))
        { tharness := tharness_init false tharness_zero, stdout := "" }).bind
      (tharness_print_line 1 (some ⟨"third", "third"⟩))).map Sys.stdout =
      some ("main.c:11: test_assert: FAIL\n\tExpected 0\n\tTest message\n" ++
        "\tAnother test message\n\tthird\n") ∧
    tharness_print_line 1 (some ⟨"Passing test message", "Passing test message"⟩)
        { tharness := { tharness_init false tharness_zero with total := 1 }, stdout := "" } =
      some { tharness := { tharness_init false tharness_zero with total := 1 },
             stdout := "" } := by
  refine ⟨by decide, by decide, by decide, ?_, ?_⟩
  · obtain ⟨s1, h1, _, h3⟩ := prints_between_reports.2.1 []
      { tharness := { total := 1, failures := 1, ignores := 0,
                      state := THARNESS_FAILING_STATE, at_new_line := true, verbose := false },
        stdout :=
          "main.c:11: test_assert: FAIL\n\tExpected 0\n\tTest message\n\tAnother test message\n" }
      rfl (Or.inl rfl) (by decide)
    simp only [exec_calls, Option.some.injEq] at h1
    subst h1
    have h0 : tharness_run (exec_calls (test_assert "main.c"))
        { tharness := tharness_init false tharness_zero, stdout := "" } =
        some { tharness := { total := 1, failures := 1, ignores := 0,
                             state := THARNESS_FAILING_STATE, at_new_line := true,
                             verbose := false },
               stdout :=
                 "main.c:11: test_assert: FAIL\n\tExpected 0\n\tTest message\n\tAnother test message\n" } := by
      decide
    rw [h0, Option.some_bind, (h3 1 ⟨"third", "third"⟩ 'd' (by decide)).2]
    decide
  · exact prints_between_reports.2.2
      (.print_line 1 (some ⟨"Passing test message", "Passing test message"⟩))
      { tharness := { tharness_init false tharness_zero with total := 1 }, stdout := "" }
      rfl rfl (Or.inl rfl)

/-! ### No test is counted twice -/

theorem uinc_le_succ (x : Nat) : uinc x ≤ x + 1 := by
  unfold uinc
  exact Nat.mod_le _ _

/-- Outside state Normal, events other than RunTest change neither `failures`
nor `ignores`. -/
theorem settled_run (body : List TharnessEvent) :
    ∀ t : Tharness, THARNESS_RUN_TEST_EVENT ∉ body → t.state ≠ THARNESS_NORMAL_STATE →
      (run_events t body).failures = t.failures ∧
      (run_events t body).ignores = t.ignores := by
  induction body with
  | nil => intro t _ _; exact ⟨rfl, rfl⟩
  | cons e rest ih =>
    intro t hno hs
    have he : e ≠ THARNESS_RUN_TEST_EVENT := fun h => hno (h ▸ List.mem_cons_self _ _)
    have hrest : THARNESS_RUN_TEST_EVENT ∉ rest := fun h => hno (List.mem_cons_of_mem _ h)
    rw [run_events_cons]
    obtain ⟨tot, f, i, st, nl, v⟩ := t
    cases st <;> cases e <;> simp at hs he <;>
      exact ih _ hrest (by simp [tharness_handle])

/-- Between one RunTest and the next, `failures + ignores` grows by at most one,
whatever the state the events start in. -/
theorem test_counts_at_most_one (body : List TharnessEvent) :
    ∀ t : Tharness, THARNESS_RUN_TEST_EVENT ∉ body →
      (run_events t body).failures + (run_events t body).ignores ≤
        t.failures + t.ignores + 1 := by
  induction body with
  | nil => intro t _; simp [run_events_nil]
  | cons e rest ih =>
    intro t hno
    have he : e ≠ THARNESS_RUN_TEST_EVENT := fun h => hno (h ▸ List.mem_cons_self _ _)
    have hrest : THARNESS_RUN_TEST_EVENT ∉ rest := fun h => hno (List.mem_cons_of_mem _ h)
    by_cases hs : t.state = THARNESS_NORMAL_STATE
    · rw [run_events_cons]
      obtain ⟨tot, f, i, st, nl, v⟩ := t
      simp only at hs
      subst hs
      cases e
      · obtain ⟨h1, h2⟩ := settled_run rest
          (tharness_handle ⟨tot, f, i, THARNESS_NORMAL_STATE, nl, v⟩ THARNESS_FAILED_EVENT)
          hrest (by simp [tharness_handle])
        rw [h1, h2]
        have := uinc_le_succ f
        simp only [tharness_handle]
        omega
      · exact ih _ hrest
      · obtain ⟨h1, h2⟩ := settled_run rest
          (tharness_handle ⟨tot, f, i, THARNESS_NORMAL_STATE, nl, v⟩ THARNESS_IGNORED_EVENT)
          hrest (by simp [tharness_handle])
        rw [h1, h2]
        have := uinc_le_succ i
        simp only [tharness_handle]
        omega
      · exact absurd rfl he
      · exact ih _ hrest
      · obtain ⟨h1, h2⟩ := settled_run rest
          (tharness_handle ⟨tot, f, i, THARNESS_NORMAL_STATE, nl, v⟩ THARNESS_RESULTS_EVENT)
          hrest (by simp [tharness_handle])
        rw [h1, h2]
        simp only [tharness_handle]
        omega
    · obtain ⟨h1, h2⟩ := settled_run (e :: rest) t hno hs
      rw [h1, h2]
      omega

/-- C21: for every event sequence fed after `tharness_init` whose first event
is RunTest and which holds fewer than 2^32 RunTest events,
`failures + ignores <= total` holds after every event; and within any single
test of it, from a RunTest up to any point before the next RunTest,
`failures + ignores` grows by at most 1. -/
theorem no_test_counted_twice (verbose : Bool) (t0 : Tharness) (l : List TharnessEvent)
    (hfirst : l.head? = some THARNESS_RUN_TEST_EVENT)
    (hcount : l.count THARNESS_RUN_TEST_EVENT < 4294967296) :
    (∀ k : Nat,
      (run_events (tharness_init verbose t0) (l.take k)).failures +
        (run_events (tharness_init verbose t0) (l.take k)).ignores ≤
      (run_events (tharness_init verbose t0) (l.take k)).total) ∧
    (∀ pre body post : List TharnessEvent,
      l = pre ++ THARNESS_RUN_TEST_EVENT :: body ++ post →
      THARNESS_RUN_TEST_EVENT ∉ body →
      (run_events (tharness_init verbose t0)
          (pre ++ THARNESS_RUN_TEST_EVENT :: body)).failures +
        (run_events (tharness_init verbose t0)
          (pre ++ THARNESS_RUN_TEST_EVENT :: body)).ignores ≤
      (run_events (tharness_init verbose t0) (pre ++ [THARNESS_RUN_TEST_EVENT])).failures +
        (run_events (tharness_init verbose t0) (pre ++ [THARNESS_RUN_TEST_EVENT])).ignores +
        1) := by
  refine ⟨?_, ?_⟩
  · intro k
    cases l with
    | nil => simp at hfirst
    | cons e rest =>
      simp only [List.head?_cons, Option.some.injEq] at hfirst
      subst hfirst
      cases k with
      | zero => simp [run_events_nil, tharness_init]
      | succ j =>
        rw [List.count_cons_self] at hcount
        rw [List.take_succ_cons, run_events_cons]
        have hc : counted (tharness_handle (tharness_init verbose t0)
            THARNESS_RUN_TEST_EVENT) := by
          simp [tharness_handle, tharness_init, counted, uinc]
        exact (counted_run rest _ hc
          (by simp only [tharness_handle, tharness_init, uinc]; omega) j).1
  · intro pre body post _ hbody
    have e1 : pre ++ THARNESS_RUN_TEST_EVENT :: body =
        (pre ++ [THARNESS_RUN_TEST_EVENT]) ++ body := by simp
    rw [e1, run_events_append]
    exact test_counts_at_most_one body _ hbody

/-- C21, instance: the 21 events of the demonstration run; after the last one
`failures + ignores = 5 = total`, and the seven events of `test_ints` raise
`failures + ignores` from 3 to 4. -/
theorem no_test_counted_twice_witness :
    demo_events.head? = some THARNESS_RUN_TEST_EVENT ∧
    (run_events (tharness_init false tharness_zero) (demo_events.take 21)).failures +
        (run_events (tharness_init false tharness_zero) (demo_events.take 21)).ignores ≤
      (run_events (tharness_init false tharness_zero) (demo_events.take 21)).total ∧
    (run_events (tharness_init false tharness_zero)
        (demo_events.take 9 ++
          THARNESS_RUN_TEST_EVENT :: (demo_events.drop 10).take 7)).failures +
      (run_events (tharness_init false tharness_zero)
        (demo_events.take 9 ++
          THARNESS_RUN_TEST_EVENT :: (demo_events.drop 10).take 7)).ignores ≤
    (run_events (tharness_init false tharness_zero)
        (demo_events.take 9 ++ [THARNESS_RUN_TEST_EVENT])).failures +
      (run_events (tharness_init false tharness_zero)
        (demo_events.take 9 ++ [THARNESS_RUN_TEST_EVENT])).ignores + 1 := by
  have h := no_test_counted_twice false tharness_zero demo_events (by decide) (by decide)
  exact ⟨by decide, h.1 21,
    h.2 (demo_events.take 9) ((demo_events.drop 10).take 7) (demo_events.drop 17)
      (by decide) (by decide)⟩

/-! ### The verbose flag and the verdict -/

theorem verdict_of_machine (a b : Tharness) (h : machine a = machine b) :
    verdict a = verdict b := by
  obtain ⟨h1, h2, h3, h4, _⟩ := machine_fields a b h
  simp [verdict, h1, h2, h3, h4]

theorem verdict_fields (a b : Tharness) (h : verdict a = verdict b) :
    a.state = b.state ∧ a.total = b.total ∧ a.failures = b.failures ∧
    a.ignores = b.ignores := by
  obtain ⟨_, _, _, _, _, _⟩ := a
  obtain ⟨_, _, _, _, _, _⟩ := b
  simp only [verdict, Tharness.mk.injEq] at h
  obtain ⟨h1, h2, h3, h4, _, _⟩ := h
  exact ⟨h4, h1, h2, h3⟩

/-- The state machine never reads `verbose`. -/
theorem verdict_handle (a b : Tharness) (e : TharnessEvent) (h : verdict a = verdict b) :
    verdict (tharness_handle a e) = verdict (tharness_handle b e) := by
  obtain ⟨_, _, _, sa, _, _⟩ := a
  obtain ⟨_, _, _, sb, _, _⟩ := b
  simp only [verdict, Tharness.mk.injEq] at h
  obtain ⟨h1, h2, h3, h4, _, _⟩ := h
  subst h1 h2 h3 h4
  cases sa <;> cases e <;> rfl

theorem verdict_run_events (l : List TharnessEvent) :
    ∀ a b : Tharness, verdict a = verdict b →
      verdict (run_events a l) = verdict (run_events b l) := by
  induction l with
  | nil => intro a b h; exact h
  | cons e rest ih =>
    intro a b h
    rw [run_events_cons, run_events_cons]
    exact ih _ _ (verdict_handle a b e h)

/-- The events a call feeds do not depend on `verbose`. -/
theorem call_events_verdict (c : Call) (a b : Tharness) (h : verdict a = verdict b) :
    call_events c a = call_events c b := by
  have hs := (verdict_fields _ _ (verdict_handle a b THARNESS_RUN_EXPECT_EVENT h)).1
  cases c <;> simp [call_events, hs]

/-- One public call made in two process states with the same verdict part
leaves the same verdict part and returns the same value. -/
theorem public_call_verdict (p : PublicCall) (s1 s2 : Sys) (r1 r2 : Sys × Option Int)
    (h : verdict s1.tharness = verdict s2.tharness)
    (h1 : p.exec s1 = some r1) (h2 : p.exec s2 = some r2) :
    verdict r1.1.tharness = verdict r2.1.tharness ∧ r1.2 = r2.2 := by
  cases p with
  | run_test =>
    simp only [PublicCall.exec, tharness_run, Option.map_some', Option.some.injEq] at h1 h2
    subst h1 h2
    exact ⟨verdict_handle _ _ _ h, rfl⟩
  | call c =>
    simp only [PublicCall.exec, Option.map_eq_some'] at h1 h2
    obtain ⟨a1, e1, rfl⟩ := h1
    obtain ⟨a2, e2, rfl⟩ := h2
    refine ⟨?_, rfl⟩
    rw [verdict_of_machine _ _ (exec_machine c s1 a1 e1),
      verdict_of_machine _ _ (exec_machine c s2 a2 e2), call_events_verdict c _ _ h]
    exact verdict_run_events _ _ _ h
  | results =>
    simp only [PublicCall.exec, results_eq, Option.map_some', Option.some.injEq] at h1 h2
    subst h1 h2
    obtain ⟨h3, h4, h5, h6⟩ := verdict_fields _ _ h
    simp [verdict, h4, h5, h6]

theorem public_call_defined (p : PublicCall) (s : Sys) (h : p.msg_ok = true) :
    ∃ r, p.exec s = some r := by
  cases p with
  | run_test => exact ⟨_, rfl⟩
  | call c =>
    obtain ⟨s', hs'⟩ := exec_defined c s h
    exact ⟨(s', none), by simp [PublicCall.exec, hs']⟩
  | results => exact ⟨_, by simp only [PublicCall.exec, results_eq, Option.map_some']; rfl⟩

theorem run_calls_defined (ps : List PublicCall) :
    ∀ s : Sys, (∀ p ∈ ps, p.msg_ok = true) → ∃ r, run_calls ps s = some r := by
  induction ps with
  | nil => intro s _; exact ⟨_, rfl⟩
  | cons p rest ih =>
    intro s h
    obtain ⟨r, hr⟩ := public_call_defined p s (h p (List.mem_cons_self _ _))
    obtain ⟨q, hq⟩ := ih r.1 (fun x hx => h x (List.mem_cons_of_mem _ hx))
    exact ⟨_, by simp only [run_calls, hr, Option.some_bind, hq, Option.map_some']; rfl⟩

/-- Two runs of the same public calls from process states with the same verdict
part pass through the same steps. -/
theorem run_calls_verdict (ps : List PublicCall) :
    ∀ (s1 s2 : Sys) (r1 r2 : Sys × List Step),
      verdict s1.tharness = verdict s2.tharness →
      run_calls ps s1 = some r1 → run_calls ps s2 = some r2 →
      verdict r1.1.tharness = verdict r2.1.tharness ∧ r1.2 = r2.2 := by
  induction ps with
  | nil =>
    intro s1 s2 r1 r2 h h1 h2
    simp only [run_calls, Option.some.injEq] at h1 h2
    subst h1 h2
    exact ⟨h, rfl⟩
  | cons p rest ih =>
    intro s1 s2 r1 r2 h h1 h2
    simp only [run_calls, Option.bind_eq_some, Option.map_eq_some'] at h1 h2
    obtain ⟨a1, e1, q1, f1, rfl⟩ := h1
    obtain ⟨a2, e2, q2, f2, rfl⟩ := h2
    obtain ⟨hv, hr⟩ := public_call_verdict p s1 s2 a1 a2 h e1 e2
    obtain ⟨hv2, hq⟩ := ih a1.1 a2.1 q1 q2 hv f1 f2
    refine ⟨hv2, ?_⟩
    obtain ⟨g1, g2, g3, g4⟩ := verdict_fields _ _ hv
    simp only [step_of, g1, g2, g3, g4, hr, hq]

/-- A test body run call after call is `exec_calls`. -/
theorem run_calls_body (body : List Call) :
    ∀ s : Sys, (run_calls (body.map PublicCall.call) s).map Prod.fst = exec_calls body s := by
  induction body with
  | nil => intro s; rfl
  | cons c rest ih =>
    intro s
    simp only [List.map_cons, run_calls, PublicCall.exec, exec_calls]
    cases h : c.exec s with
    | none => rfl
    | some s1 =>
      simp only [Option.map_some', Option.some_bind]
      rw [← ih s1]
      cases run_calls (rest.map PublicCall.call) s1 <;> rfl

/-- The entry `run_test` followed by the calls of a test body is `tharness_run`
of that body. -/
theorem run_calls_run_test (body : List Call) (s : Sys) :
    (run_calls (PublicCall.run_test :: body.map PublicCall.call) s).map Prod.fst =
      tharness_run (exec_calls body) s := by
  simp only [run_calls, PublicCall.exec, tharness_run, Option.map_some', Option.some_bind]
  rw [← run_calls_body body (feed THARNESS_RUN_TEST_EVENT s)]
  cases run_calls (body.map PublicCall.call) (feed THARNESS_RUN_TEST_EVENT s) <;> rfl

/-- C22: for every sequence of public calls (the entry of `tharness_run`,
expect, pass, fail, ignore, print, print_line, `tharness_results`) with the
same arguments, run once after `tharness_init(true)` and once after
`tharness_init(false)`: both runs are defined when no message has an empty
format, and whenever both return they pass through the same steps (the same
state and the same `total`, `failures`, `ignores` after every call, the same
value returned by every `tharness_results`) and end in the same state with
identical counters. -/
theorem verbose_not_in_verdict (t0 : Tharness) (out : String) (ps : List PublicCall) :
    ((∀ p ∈ ps, p.msg_ok = true) →
      (∃ r, run_calls ps { tharness := tharness_init true t0, stdout := out } = some r) ∧
      (∃ r, run_calls ps { tharness := tharness_init false t0, stdout := out } = some r)) ∧
    (∀ r1 r2 : Sys × List Step,
      run_calls ps { tharness := tharness_init true t0, stdout := out } = some r1 →
      run_calls ps { tharness := tharness_init false t0, stdout := out } = some r2 →
      r1.2 = r2.2 ∧
      r1.1.tharness.state = r2.1.tharness.state ∧
      r1.1.tharness.total = r2.1.tharness.total ∧
      r1.1.tharness.failures = r2.1.tharness.failures ∧
      r1.1.tharness.ignores = r2.1.tharness.ignores) := by
  refine ⟨fun h => ⟨run_calls_defined ps _ h, run_calls_defined ps _ h⟩, ?_⟩
  intro r1 r2 h1 h2
  obtain ⟨hv, hs⟩ := run_calls_verdict ps _ _ r1 r2 (by rfl) h1 h2
  exact ⟨hs, verdict_fields _ _ hv⟩

/-- C22, instance: the calls of `main`, run after `tharness_init(true)` and
after `tharness_init(false)`: the same steps, ending in state Results with
counters 5, 4, 1 and the value 4 returned, while the outputs differ. -/
theorem verbose_not_in_verdict_witness :
    ∃ r1 r2 : Sys × List Step,
      run_calls (demo_program "main.c")
        { tharness := tharness_init true tharness_zero, stdout := "" } = some r1 ∧
      run_calls (demo_program "main.c")
        { tharness := tharness_init false tharness_zero, stdout := "" } = some r2 ∧
      r1.2 = r2.2 ∧
      r2.2.getLast? = some { state := THARNESS_RESULTS_STATE, total := 5, failures := 4,
                             ignores := 1, returned := some 4 } ∧
      r1.1.stdout ≠ r2.1.stdout := by
  have h := verbose_not_in_verdict tharness_zero "" (demo_program "main.c")
  obtain ⟨⟨r1, h1⟩, ⟨r2, h2⟩⟩ := h.1 (by decide)
  refine ⟨r1, r2, h1, h2, (h.2 r1 r2 h1 h2).1, ?_, ?_⟩
  · have e : (run_calls (demo_program "main.c")
        { tharness := tharness_init false tharness_zero, stdout := "" }).map
        (fun r => r.2.getLast?) =
        some (some { state := THARNESS_RESULTS_STATE, total := 5, failures := 4,
                     ignores := 1, returned := some 4 }) := by decide
    rw [h2] at e
    simpa using e
  · have e : (run_calls (demo_program "main.c")
        { tharness := tharness_init true tharness_zero, stdout := "" }).map
        (fun r => r.1.stdout) ≠
        (run_calls (demo_program "main.c")
        { tharness := tharness_init false tharness_zero, stdout := "" }).map
        (fun r => r.1.stdout) := by decide
    rw [h1, h2] at e
    simpa using e

/-! ### The diagnostic block and the calls after it -/

theorem exec_calls_append (xs : List Call) :
    ∀ (ys : List Call) (s : Sys),
      exec_calls (xs ++ ys) s = (exec_calls xs s).bind (exec_calls ys) := by
  induction xs with
  | nil => intro ys s; rfl
  | cons c rest ih =>
    intro ys s
    rw [List.cons_append, exec_calls, exec_calls]
    cases c.exec s with
    | none => rfl
    | some s1 => simp only [Option.some_bind, ih]

/-- C10, amended: with `verbose = false`, a failing expect evaluated in state
Normal whose message is null or has a non-empty format string returns and
writes exactly: the marker line `<file>:<line>: <function>: FAIL`, the line
`Expected <expression text>` behind one tab and, only if a message was supplied,
a tab, the formatted message, one more tab if the format string ends in a
newline, and a newline.  For a message whose format does not end in a newline
this is the block of three lines.  In the rest of the test, whatever prints
come first (they are written, the state being Failing), the first expect,
pass, fail or ignore call and every call after it, reporting call or print,
write nothing and leave the state at Failed. -/
theorem failing_expect_block (s : Sys) (file func : String) (line : Int) (str : String)
    (msg : Option Message) (hv : s.tharness.verbose = false)
    (hs : s.tharness.state = THARNESS_NORMAL_STATE)
    (hm : ∀ m, msg = some m → (last_char m.fmt).isSome = true) :
    ∃ s', tharness_expect false file func line str msg s = some s' ∧
      s'.stdout = s.stdout ++ file ++ ":" ++ printf_d line ++ ": " ++ func ++ ": FAIL" ++
        "\n" ++ "\t" ++ "Expected " ++ str ++ "\n" ++ message_lines msg ∧
      ((∀ m, msg = some m → ends_in_newline m = false) →
        s'.stdout = s.stdout ++ diagnostic_block file func line str msg) ∧
      s'.tharness.state = THARNESS_FAILING_STATE ∧
      (∀ (r : Call) (rest : List Call), r.is_report = true →
        ∃ s'', exec_calls (r :: rest) s' = some s'' ∧
          s''.stdout = s'.stdout ∧
          s''.tharness.at_new_line = s'.tharness.at_new_line ∧
          s''.tharness.state = THARNESS_FAILED_STATE) ∧
      (∀ (ps : List Call) (r : Call) (rest : List Call),
        (∀ c ∈ ps, c.is_print = true) → r.is_report = true →
        ((∀ c ∈ ps, c.msg_ok = true) → ∃ s1, exec_calls ps s' = some s1) ∧
        ∀ s1, exec_calls ps s' = some s1 →
          ∃ s'', exec_calls (ps ++ r :: rest) s' = some s'' ∧
            s''.stdout = s1.stdout ∧
            s''.tharness.at_new_line = s1.tharness.at_new_line ∧
            s''.tharness.state = THARNESS_FAILED_STATE) := by
  refine ⟨_, failing_expect_eq s file func line str msg hv hs hm, rfl, ?_, rfl, ?_, ?_⟩
  · intro hnl
    cases msg with
    | none => simp only [diagnostic_block, message_lines, String.append_assoc]
    | some m =>
      simp only [diagnostic_block, message_lines, hnl m rfl, String.append_assoc,
        String.empty_append, Bool.false_eq_true, if_false]
  · intro r rest hr
    exact ⟨_, after_failure_silent _ r rest (by exact hv) (by rfl) hr, rfl, rfl, rfl⟩
  · intro ps r rest hps hr
    refine ⟨fun hok => exec_calls_defined ps _ hok, ?_⟩
    intro s1 h1
    have hm1 := exec_calls_machine ps _ s1 h1
    rw [print_events ps _ hps, run_events_nil] at hm1
    obtain ⟨_, _, _, h4, h5⟩ := machine_fields _ _ hm1
    rw [exec_calls_append, h1, Option.some_bind]
    exact ⟨_, after_failure_silent s1 r rest (h5.trans hv) h4 hr, rfl, rfl, rfl⟩

/-- C10, amended, instance: the failing `EXPECT(a == b, "This is a test")` of
`test_ints`; a print may come first, and the `EXPECT(a > b)` that follows it
and a print after that write nothing. -/
theorem failing_expect_block_witness :
    ∃ s' s1 s'', tharness_expect false "main.c" "test_ints" 38 "a == b"
        (some ⟨"This is a test", "This is a test"⟩)
        { tharness := { tharness_zero with total := 4, failures := 2, ignores := 1 },
          stdout := "" } = some s' ∧
      s'.stdout = "main.c:38: test_ints: FAIL\n\tExpected a == b\n\tThis is a test\n" ∧
      exec_calls [ .print_line 1 (some ⟨"note", "note"⟩) ] s' = some s1 ∧
      exec_calls [ .print_line 1 (some ⟨"note", "note"⟩),
                   .expect false "main.c" "test_ints" 39 "a > b" none,
                   .print 1 (some ⟨"late", "late"⟩) ] s' = some s'' ∧
      s''.stdout = s1.stdout ∧
      s''.tharness.state = THARNESS_FAILED_STATE := by
  obtain ⟨s', h1, _, h2, _, _, h3⟩ := failing_expect_block
    { tharness := { tharness_zero with total := 4, failures := 2, ignores := 1 },
      stdout := "" }
    "main.c" "test_ints" 38 "a == b" (some ⟨"This is a test", "This is a test"⟩)
    rfl rfl (by intro m hm; simp only [Option.some.injEq] at hm; subst hm; decide)
  obtain ⟨h4, h5⟩ := h3 [ .print_line 1 (some ⟨"note", "note"⟩) ]
    (.expect false "main.c" "test_ints" 39 "a > b" none)
    [ .print 1 (some ⟨"late", "late"⟩) ] (by decide) rfl
  obtain ⟨s1, h6⟩ := h4 (by decide)
  obtain ⟨s'', h7, h8, _, h9⟩ := h5 s1 h6
  refine ⟨s', s1, s'', h1, ?_, h6, h7, h8, h9⟩
  rw [h2 (by intro m hm; simp only [Option.some.injEq] at hm; subst hm; decide)]
  decide

end Harness
